import Mathlib

/-!
# Verification of the `pracstro` astronomy library

Shallow embedding of the core of the `pracstro` Rust library
(`src/time.rs`, `src/coord.rs`, `src/sol.rs`, `src/misc.rs`) in Lean 4.

Modelling conventions:

* `f64` values are modelled as real numbers (`ℝ`); exact decimal literals of
  the source become exact rational literals.
* Rust's `f64::trunc` (round toward zero) is `rtrunc`, `f64::fract` is
  `rfract`, and the `%` operator on `f64` (remainder with the sign of the
  dividend) is `frem`.
* `f64::to_degrees` multiplies by `180 / π` and `f64::to_radians` by
  `π / 180`, as in the Rust standard library.
* The `acos` calls whose float result may be NaN (in `Coord::riseset`, where
  the code then tests `is_nan`) are modelled with `Option`: the argument
  being outside `[-1, 1]` is the NaN case.
* Calendar arithmetic (`Date::calendar` / `Date::from_calendar`), which uses
  no transcendental functions, is modelled computably over `ℚ`; the
  time-of-day `Angle` argument is represented by its `turns()` value, the
  only way those functions consume it.
* The one unbounded loop of the library (the Newton iteration for Kepler's
  equation in `Planet::locationcart`) is modelled with an explicit fuel
  parameter; the surrounding code is otherwise a direct transcription.
-/

open Real

namespace Pracstro

/-! ## Rust float primitives -/

/-- Rust `f64::trunc`: round toward zero. -/
noncomputable def rtrunc (x : ℝ) : ℤ := if x < 0 then ⌈x⌉ else ⌊x⌋

/-- Rust `f64::fract`: `x - x.trunc()` (keeps the sign of `x`). -/
noncomputable def rfract (x : ℝ) : ℝ := x - rtrunc x

/-- Rust `%` on `f64`: remainder with the sign of the dividend,
`x - y * (x / y).trunc()`. -/
noncomputable def frem (x y : ℝ) : ℝ := x - y * rtrunc (x / y)

/-- 2π, `std::f64::consts::TAU` of the source. -/
noncomputable def TAU : ℝ := 2 * π

theorem TAU_pos : 0 < TAU := by
  have := pi_pos; unfold TAU; linarith

theorem rtrunc_le_self_of_nonneg {x : ℝ} (h : 0 ≤ x) : (rtrunc x : ℝ) ≤ x := by
  unfold rtrunc
  rw [if_neg (not_lt.mpr h)]
  exact Int.floor_le x

theorem self_le_rtrunc_of_nonpos {x : ℝ} (h : x < 0) : x ≤ (rtrunc x : ℝ) := by
  unfold rtrunc
  rw [if_pos h]
  exact Int.le_ceil x

/-! ## `Angle` (the `Period`/`Angle` newtype of `src/time.rs`)

An `Angle` is represented by its stored radian value.  All constructors
funnel through `from_radians`, which reduces with a least positive residue
(`lpr` in the source). -/

namespace Angle

/-- The `lpr` helper inside `Angle::from_radians`:
`let z = x % y; z + if z < 0.0 { y } else { 0.0 }`. -/
noncomputable def lpr (x y : ℝ) : ℝ := frem x y + if frem x y < 0 then y else 0

/-- `Angle::from_radians`: reduce to `[0, 2π)` by least positive residue. -/
noncomputable def from_radians (x : ℝ) : ℝ := lpr x TAU

/-- `Angle::radians`. -/
def radians (x : ℝ) : ℝ := x

/-- `Angle::degrees`, a wrapper around `f64::to_degrees`. -/
noncomputable def degrees (x : ℝ) : ℝ := x * (180 / π)

/-- `Angle::from_degrees`, a wrapper around `f64::to_radians`. -/
noncomputable def from_degrees (x : ℝ) : ℝ := from_radians (x * (π / 180))

/-- `Angle::turns`. -/
noncomputable def turns (x : ℝ) : ℝ := x / TAU

/-- `Angle::from_turns`. -/
noncomputable def from_turns (x : ℝ) : ℝ := from_radians (x * TAU)

/-- `Angle::decimal`: fractional hours, `degrees / 15`. -/
noncomputable def decimal (x : ℝ) : ℝ := degrees x / 15

/-- `Angle::from_decimal`. -/
noncomputable def from_decimal (x : ℝ) : ℝ := from_degrees (x * 15)

/-- `Angle::clock`: `(hour, minute, second)` of a time angle.  The `u8`
casts of the source are modelled as the mathematical integers they
truncate to (the associated claim is exactly that they stay in range). -/
noncomputable def clock (x : ℝ) : ℤ × ℤ × ℝ :=
  (rtrunc (decimal x),
   rtrunc (rfract (decimal x) * 60),
   rfract (rfract (decimal x) * 60) * 60)

/-- `Angle::from_clock`. -/
noncomputable def from_clock (h m : ℕ) (s : ℝ) : ℝ :=
  from_decimal ((h : ℝ) + (((m : ℝ) + s / 60) / 60))

/-- `Angle::degminsec`: degrees, arcminutes, arcseconds (`i16`/`u8` casts
modelled as integers). -/
noncomputable def degminsec (x : ℝ) : ℤ × ℤ × ℝ :=
  (rtrunc (degrees x),
   rtrunc (rfract (degrees x) * 60),
   rfract (rfract (degrees x) * 60) * 60)

/-- `Angle::from_degminsec`. -/
noncomputable def from_degminsec (d : ℤ) (m : ℕ) (s : ℝ) : ℝ :=
  from_degrees ((d : ℝ) + (((m : ℝ) + s / 60) / 60))

/-- `Angle::to_latitude`: read the angle as a signed latitude in `(-π, π]`. -/
noncomputable def to_latitude (x : ℝ) : ℝ := if π < x then x - TAU else x

/-- `Angle::sin`. -/
noncomputable def sin (x : ℝ) : ℝ := Real.sin x

/-- `Angle::cos`. -/
noncomputable def cos (x : ℝ) : ℝ := Real.cos x

/-- `Angle::tan`. -/
noncomputable def tan (x : ℝ) : ℝ := Real.tan x

/-- `Angle::asin`. -/
noncomputable def asin (x : ℝ) : ℝ := from_radians (Real.arcsin x)

/-- `Angle::acos`. -/
noncomputable def acos (x : ℝ) : ℝ := from_radians (Real.arccos x)

/-- `Angle::atan2`: Rust `x.atan2(y)`, the four-quadrant arctangent,
modelled through the argument of the complex number `y + x*I`. -/
noncomputable def atan2 (x y : ℝ) : ℝ := from_radians (Complex.arg ⟨y, x⟩)

/-- `Angle::inverse`. -/
noncomputable def inverse (x : ℝ) : ℝ := from_radians (TAU - x)

/-- `impl Add for Angle`. -/
noncomputable def add (a b : ℝ) : ℝ := from_radians (radians a + radians b)

/-- `impl Sub for Angle`. -/
noncomputable def sub (a b : ℝ) : ℝ := from_radians (radians a - radians b)

/-- `impl Mul<f64> for Angle`. -/
noncomputable def mul (a k : ℝ) : ℝ := from_radians (radians a * k)

/-- `impl Div<f64> for Angle`. -/
noncomputable def div (a k : ℝ) : ℝ := from_radians (radians a / k)

/-- The coarse equality of `impl PartialEq for Angle`: degree and arcminute
components match; arcseconds are ignored. -/
noncomputable def eqCoarse (a b : ℝ) : Prop :=
  (degminsec a).1 = (degminsec b).1 ∧ (degminsec a).2.1 = (degminsec b).2.1

/-! ### The wrap lemmas -/

theorem lpr_mem_Ico {y : ℝ} (hy : 0 < y) (x : ℝ) : lpr x y ∈ Set.Ico 0 y := by
  unfold lpr frem
  rcases le_or_lt 0 (x / y) with hq | hq
  · have h1 : (rtrunc (x / y) : ℝ) ≤ x / y := rtrunc_le_self_of_nonneg hq
    have h2 : x / y - 1 < rtrunc (x / y) := by
      unfold rtrunc
      rw [if_neg (not_lt.mpr hq)]
      exact Int.sub_one_lt_floor (x / y)
    have hz0 : 0 ≤ x - y * rtrunc (x / y) := by
      have := mul_le_mul_of_nonneg_left h1 hy.le
      rw [mul_div_cancel₀ x hy.ne'] at this
      linarith
    have hz1 : x - y * rtrunc (x / y) < y := by
      have := mul_lt_mul_of_pos_left h2 hy
      rw [mul_sub, mul_one, mul_div_cancel₀ x hy.ne'] at this
      linarith
    rw [if_neg (not_lt.mpr hz0)]
    exact ⟨by linarith, by linarith⟩
  · have h1 : x / y ≤ (rtrunc (x / y) : ℝ) := self_le_rtrunc_of_nonpos hq
    have h2 : (rtrunc (x / y) : ℝ) < x / y + 1 := by
      unfold rtrunc
      rw [if_pos hq]
      exact Int.ceil_lt_add_one (x / y)
    have hz0 : x - y * rtrunc (x / y) ≤ 0 := by
      have := mul_le_mul_of_nonneg_left h1 hy.le
      rw [mul_div_cancel₀ x hy.ne'] at this
      linarith
    have hz1 : -y < x - y * rtrunc (x / y) := by
      have := mul_lt_mul_of_pos_left h2 hy
      rw [mul_add, mul_one, mul_div_cancel₀ x hy.ne'] at this
      linarith
    rcases lt_or_eq_of_le hz0 with hz | hz
    · rw [if_pos hz]
      exact ⟨by linarith, by linarith⟩
    · rw [if_neg (by rw [hz]; exact lt_irrefl 0)]
      exact ⟨by linarith, by linarith⟩

theorem lpr_sub_int {y : ℝ} (x : ℝ) : ∃ k : ℤ, x - lpr x y = y * k := by
  unfold lpr frem
  by_cases h : x - y * rtrunc (x / y) < 0
  · exact ⟨rtrunc (x / y) - 1, by rw [if_pos h]; push_cast; ring⟩
  · exact ⟨rtrunc (x / y), by rw [if_neg h]; ring⟩

theorem from_radians_mem_Ico (x : ℝ) : from_radians x ∈ Set.Ico 0 TAU :=
  lpr_mem_Ico TAU_pos x

theorem from_radians_sub_int (x : ℝ) : ∃ k : ℤ, x - from_radians x = TAU * k :=
  lpr_sub_int x

/-- `from_radians` is the unique representative of `x` modulo `2π`
inside `[0, 2π)`. -/
theorem from_radians_eq_of {x y : ℝ} (hy : y ∈ Set.Ico 0 TAU)
    (hk : ∃ k : ℤ, x - y = TAU * k) : from_radians x = y := by
  obtain ⟨k, hk⟩ := hk
  obtain ⟨j, hj⟩ := from_radians_sub_int x
  have hw := from_radians_mem_Ico x
  have h1 : from_radians x - y = TAU * (k - j) := by linarith
  have htau := TAU_pos
  rcases lt_trichotomy (k - j) 0 with h | h | h
  · have : (k - j : ℝ) ≤ -1 := by exact_mod_cast Int.le_of_lt_add_one (by simpa using h)
    nlinarith [hw.1, hw.2, hy.1, hy.2]
  · have hz : ((k : ℝ) - j) = 0 := by exact_mod_cast congrArg (fun n : ℤ => (n : ℝ)) h
    rw [hz, mul_zero] at h1; linarith
  · have : (1 : ℝ) ≤ (k - j : ℝ) := by exact_mod_cast h
    nlinarith [hw.1, hw.2, hy.1, hy.2]

theorem from_radians_eq_self {x : ℝ} (hx : x ∈ Set.Ico 0 TAU) :
    from_radians x = x :=
  from_radians_eq_of hx ⟨0, by simp⟩

/-- Congruence: wrapping only depends on the value modulo `2π`. -/
theorem from_radians_congr {x y : ℝ} (h : ∃ k : ℤ, x - y = TAU * k) :
    from_radians x = from_radians y := by
  obtain ⟨k, hk⟩ := h
  obtain ⟨j, hj⟩ := from_radians_sub_int y
  exact from_radians_eq_of (from_radians_mem_Ico y)
    ⟨k + j, by push_cast [Int.cast_add]; linarith⟩

theorem sin_from_radians (x : ℝ) : Real.sin (from_radians x) = Real.sin x := by
  obtain ⟨k, hk⟩ := from_radians_sub_int x
  have : from_radians x = x + (-k : ℤ) * (2 * π) := by push_cast; unfold TAU at hk; linarith
  rw [this, Real.sin_add_int_mul_two_pi]

theorem cos_from_radians (x : ℝ) : Real.cos (from_radians x) = Real.cos x := by
  obtain ⟨k, hk⟩ := from_radians_sub_int x
  have : from_radians x = x + (-k : ℤ) * (2 * π) := by push_cast; unfold TAU at hk; linarith
  rw [this, Real.cos_add_int_mul_two_pi]

end Angle

end Pracstro

namespace Pracstro

theorem rtrunc_eq_floor {x : ℝ} (h : 0 ≤ x) : rtrunc x = ⌊x⌋ := by
  unfold rtrunc; rw [if_neg (not_lt.mpr h)]

theorem rfract_mem_Ico {x : ℝ} (h : 0 ≤ x) : rfract x ∈ Set.Ico 0 1 := by
  unfold rfract
  rw [rtrunc_eq_floor h]
  exact ⟨by simp [Int.fract_nonneg x], by simpa using Int.fract_lt_one x⟩

/-- Integer and fractional components of a value in `[0, B)`, as produced by
the sexagesimal decompositions `Angle::clock` / `Angle::degminsec`. -/
theorem sexagesimal_components {y : ℝ} {B : ℤ} (h0 : 0 ≤ y) (hB : y < B) :
    (0 ≤ rtrunc y ∧ rtrunc y ≤ B - 1) ∧
    (0 ≤ rtrunc (rfract y * 60) ∧ rtrunc (rfract y * 60) ≤ 59) ∧
    (0 ≤ rfract (rfract y * 60) * 60 ∧ rfract (rfract y * 60) * 60 < 60) := by
  have hf := rfract_mem_Ico h0
  have hz0 : 0 ≤ rfract y * 60 := by nlinarith [hf.1]
  have hz1 : rfract y * 60 < 60 := by nlinarith [hf.2]
  have hf2 := rfract_mem_Ico hz0
  refine ⟨⟨?_, ?_⟩, ⟨?_, ?_⟩, ⟨?_, ?_⟩⟩
  · rw [rtrunc_eq_floor h0]; exact Int.floor_nonneg.mpr h0
  · rw [rtrunc_eq_floor h0]
    have : ⌊y⌋ < B := Int.floor_lt.mpr (by exact_mod_cast hB)
    omega
  · rw [rtrunc_eq_floor hz0]; exact Int.floor_nonneg.mpr hz0
  · rw [rtrunc_eq_floor hz0]
    have : ⌊rfract y * 60⌋ < 60 := Int.floor_lt.mpr (by exact_mod_cast hz1)
    omega
  · nlinarith [hf2.1]
  · nlinarith [hf2.2]

/-- **C10** (confirmed).  For an `Angle` whose stored radians lie in
`[0, 2π)`, `clock()` returns `(h, m, s)` with `0 ≤ h ≤ 23`, `0 ≤ m ≤ 59`,
`0 ≤ s < 60`, and `degminsec()` returns `(d, m, s)` with `0 ≤ d ≤ 359`,
`0 ≤ m ≤ 59`, `0 ≤ s < 60` — in particular every integer component fits its
narrow integer type (`u8` / `i16`). -/
theorem c10_clock_degminsec_ranges (x : ℝ) (hx : x ∈ Set.Ico 0 TAU) :
    (0 ≤ (Angle.clock x).1 ∧ (Angle.clock x).1 ≤ 23) ∧
    (0 ≤ (Angle.clock x).2.1 ∧ (Angle.clock x).2.1 ≤ 59) ∧
    (0 ≤ (Angle.clock x).2.2 ∧ (Angle.clock x).2.2 < 60) ∧
    (0 ≤ (Angle.degminsec x).1 ∧ (Angle.degminsec x).1 ≤ 359) ∧
    (0 ≤ (Angle.degminsec x).2.1 ∧ (Angle.degminsec x).2.1 ≤ 59) ∧
    (0 ≤ (Angle.degminsec x).2.2 ∧ (Angle.degminsec x).2.2 < 60) := by
  have hpi := pi_pos
  have hx0 := hx.1
  have hx1 : x < 2 * π := by have := hx.2; unfold TAU at this; linarith
  have hdeg0 : 0 ≤ Angle.degrees x := by
    unfold Angle.degrees; positivity
  have hdeg1 : Angle.degrees x < (360 : ℤ) := by
    unfold Angle.degrees
    push_cast
    rw [div_eq_mul_inv, ← mul_assoc]
    calc x * 180 * π⁻¹ < 2 * π * 180 * π⁻¹ := by
          apply mul_lt_mul_of_pos_right _ (by positivity)
          nlinarith
      _ = 360 := by field_simp; ring
  have hdec0 : 0 ≤ Angle.decimal x := by
    unfold Angle.decimal; positivity
  have hdec1 : Angle.decimal x < (24 : ℤ) := by
    unfold Angle.decimal
    push_cast
    push_cast at hdeg1
    linarith
  have hc := sexagesimal_components hdec0 hdec1
  have hd := sexagesimal_components hdeg0 hdeg1
  unfold Angle.clock Angle.degminsec
  refine ⟨⟨hc.1.1, by have := hc.1.2; omega⟩, hc.2.1, hc.2.2,
    ⟨hd.1.1, by have := hd.1.2; omega⟩, hd.2.1, hd.2.2⟩

/-- Witness for C10 at the concrete angle π (180°, 12h). -/
theorem c10_clock_degminsec_ranges_witness :
    (π ∈ Set.Ico 0 TAU) ∧
    ((0 ≤ (Angle.clock π).1 ∧ (Angle.clock π).1 ≤ 23) ∧
     (0 ≤ (Angle.clock π).2.1 ∧ (Angle.clock π).2.1 ≤ 59) ∧
     (0 ≤ (Angle.clock π).2.2 ∧ (Angle.clock π).2.2 < 60) ∧
     (0 ≤ (Angle.degminsec π).1 ∧ (Angle.degminsec π).1 ≤ 359) ∧
     (0 ≤ (Angle.degminsec π).2.1 ∧ (Angle.degminsec π).2.1 ≤ 59) ∧
     (0 ≤ (Angle.degminsec π).2.2 ∧ (Angle.degminsec π).2.2 < 60)) := by
  have hmem : π ∈ Set.Ico 0 TAU := by
    constructor
    · exact pi_pos.le
    · unfold TAU; nlinarith [pi_pos]
  exact ⟨hmem, c10_clock_degminsec_ranges π hmem⟩

/-! ## `Date` (`src/time.rs`): continuous Julian day

The stored representation is the Julian day number.  `centuries` is used by
the orbital code over `ℝ`; the calendar conversions use no transcendental
functions and are modelled computably over `ℚ` (the time-of-day `Angle` is
represented by its `turns()` value, the only way `from_calendar` and
`calendar` consume or produce it). -/

/-- `f64::trunc` on exact rational values (round toward zero). -/
def qtrunc (x : ℚ) : ℤ := if x < 0 then ⌈x⌉ else ⌊x⌋

theorem qtrunc_eq {x : ℚ} {n : ℤ} (h1 : (n : ℚ) ≤ x) (h2 : x < n + 1)
    (h0 : (0 : ℚ) ≤ x) : qtrunc x = n := by
  unfold qtrunc
  rw [if_neg (not_lt.mpr h0)]
  exact Int.floor_eq_iff.mpr ⟨h1, h2⟩

namespace Date

/-- `Date::centuries`: Julian centuries since J2000. -/
noncomputable def centuries (d : ℝ) : ℝ := (d - 2451545.0) / 36525.0

/-- The conditional Gregorian correction term of `Date::from_calendar`:
`if year >= 1582 { 2 - (year / 100) + (year / 400) } else { 0 }`
(`i64` division truncates toward zero). -/
def gregorianCorrection (year : ℤ) : ℤ :=
  if 1582 ≤ year then 2 - year.tdiv 100 + year.tdiv 400 else 0

/-- `Date::from_calendar` over exact rationals; `τ` is the `turns()` value
of the time-of-day angle. -/
def from_calendar (y : ℤ) (m : ℕ) (day : ℕ) (τ : ℚ) : ℚ :=
  let year : ℤ := if m < 3 then y - 1 else y
  let month : ℤ := if m < 3 then (m : ℤ) + 12 else (m : ℤ)
  (gregorianCorrection year : ℚ)
    + (qtrunc (365.25 * (year : ℚ) - if year < 0 then 0.75 else 0) : ℚ)
    + (qtrunc (30.6001 * ((month : ℚ) + 1)) : ℚ)
    + (day : ℚ) + τ + 1720994.5

/-- The computation of `from_calendar` with the Gregorian correction term
omitted — what the claim asserts `from_calendar` computes for every
calendar date before 1582-10-15. -/
def from_calendar_julian (y : ℤ) (m : ℕ) (day : ℕ) (τ : ℚ) : ℚ :=
  let year : ℤ := if m < 3 then y - 1 else y
  let month : ℤ := if m < 3 then (m : ℤ) + 12 else (m : ℤ)
  (qtrunc (365.25 * (year : ℚ) - if year < 0 then 0.75 else 0) : ℚ)
    + (qtrunc (30.6001 * ((month : ℚ) + 1)) : ℚ)
    + (day : ℚ) + τ + 1720994.5

/-- `Date::calendar` over exact rationals.  Returns
`(year, month, day, turns of the time angle)`; the `i64`/`u8` casts are the
integers they truncate to, and `Angle::from_turns(d.fract())` is
represented by the fractional turns value itself. -/
def calendar (jd : ℚ) : ℤ × ℤ × ℤ × ℚ :=
  let j : ℚ := jd + 1 / 2
  let i : ℤ := qtrunc j
  let f : ℚ := j - i
  let b : ℚ :=
    (if (2299160 : ℚ) < i then
      let a : ℤ := qtrunc (((i : ℚ) - 1867216.25) / 36524.25)
      (i : ℚ) + 1 + a - qtrunc ((a : ℚ) / 4)
    else (i : ℚ)) + 1524
  let d : ℤ := qtrunc ((b - 122.2) / 365.25)
  let e : ℤ := qtrunc (365.25 * (d : ℚ))
  let g : ℤ := qtrunc ((b - (e : ℚ)) / 30.6001)
  let m : ℤ := if (g : ℚ) < 13.5 then g - 1 else g - 13
  let y : ℤ := if (2.5 : ℚ) < m then d - 4716 else d - 4715
  let dd : ℚ := b - (e : ℚ) + f - (qtrunc (30.6001 * (g : ℚ)) : ℚ)
  (y, m, qtrunc dd, dd - qtrunc dd)

end Date

/-- **C9** (code bug).  The Gregorian correction in `Date::from_calendar`
is keyed on the month-adjusted *year* being ≥ 1582, not on the full date
being on/after 1582-10-15.  Hence for 1582-10-04 (a date *before*
1582-10-15, which by the claim — and by the algorithm the code cites —
must get no correction) the code applies the −10-day correction: it
returns JD 2299149.5 instead of the correct 2299159.5 produced by the
uncorrected (Julian-calendar) formula, and `Date::calendar` (whose own
switch *is* keyed on JD 2299160.5, i.e. 1582-10-15) decodes the result
back to 1582-09-24, breaking the `calendar`/`from_calendar` round trip. -/
theorem c9_gregorian_switch_evaluation :
    Date.from_calendar 1582 10 4 0 = 2299149.5 ∧
    Date.from_calendar_julian 1582 10 4 0 = 2299159.5 ∧
    Date.calendar (Date.from_calendar 1582 10 4 0) = (1582, 9, 24, (0 : ℚ)) ∧
    Date.calendar (Date.from_calendar_julian 1582 10 4 0) =
      (1582, 10, 4, (0 : ℚ)) := by
  have hy : qtrunc ((1155651 : ℚ) / 2) = 577825 :=
    qtrunc_eq (by norm_num) (by norm_num) (by norm_num)
  have hm : qtrunc ((3366011 : ℚ) / 10000) = 336 :=
    qtrunc_eq (by norm_num) (by norm_num) (by norm_num)
  have hcorr : Date.gregorianCorrection 1582 = -10 := by decide
  have h1 : Date.from_calendar 1582 10 4 0 = 2299149.5 := by
    simp only [Date.from_calendar]
    norm_num [hy, hm, hcorr]
  have h2 : Date.from_calendar_julian 1582 10 4 0 = 2299159.5 := by
    simp only [Date.from_calendar_julian]
    norm_num [hy, hm]
  have he : qtrunc ((4600689 : ℚ) / 2) = 2300344 :=
    qtrunc_eq (by norm_num) (by norm_num) (by norm_num)
  have h3 : Date.calendar (2299149.5 : ℚ) = (1582, 9, 24, (0 : ℚ)) := by
    have hi : qtrunc ((2299150 : ℚ)) = 2299150 :=
      qtrunc_eq (by norm_num) (by norm_num) (by norm_num)
    have hd : qtrunc ((15337012 : ℚ) / 2435) = 6298 :=
      qtrunc_eq (by norm_num) (by norm_num) (by norm_num)
    have hg : qtrunc ((3300000 : ℚ) / 306001) = 10 :=
      qtrunc_eq (by norm_num) (by norm_num) (by norm_num)
    have htg : qtrunc ((306001 : ℚ) / 1000) = 306 :=
      qtrunc_eq (by norm_num) (by norm_num) (by norm_num)
    have hdd : qtrunc ((24 : ℚ)) = 24 :=
      qtrunc_eq (by norm_num) (by norm_num) (by norm_num)
    simp only [Date.calendar]
    norm_num [hi, hd, he, hg, htg, hdd]
  have h4 : Date.calendar (2299159.5 : ℚ) = (1582, 10, 4, (0 : ℚ)) := by
    have hi : qtrunc ((2299160 : ℚ)) = 2299160 :=
      qtrunc_eq (by norm_num) (by norm_num) (by norm_num)
    have hd : qtrunc ((46011236 : ℚ) / 7305) = 6298 :=
      qtrunc_eq (by norm_num) (by norm_num) (by norm_num)
    have hg : qtrunc ((3400000 : ℚ) / 306001) = 11 :=
      qtrunc_eq (by norm_num) (by norm_num) (by norm_num)
    have htg : qtrunc ((3366011 : ℚ) / 10000) = 336 :=
      qtrunc_eq (by norm_num) (by norm_num) (by norm_num)
    have hdd : qtrunc ((4 : ℚ)) = 4 :=
      qtrunc_eq (by norm_num) (by norm_num) (by norm_num)
    simp only [Date.calendar]
    norm_num [hi, hd, he, hg, htg, hdd]
  exact ⟨h1, h2, h1 ▸ h3, h2 ▸ h4⟩

/-! ## `Coord` (`src/coord.rs`): pairs of angles

A `Coord` is the stored pair (right ascension, declination). -/

namespace Coord

/-- `Coord::from_equatorial`. -/
def from_equatorial (x y : ℝ) : ℝ × ℝ := (x, y)

/-- `Coord::equatorial`. -/
def equatorial (c : ℝ × ℝ) : ℝ × ℝ := c

/-- `Coord::default()` (derived `Default`: both angles zero). -/
def default : ℝ × ℝ := (0, 0)

/-- `Coord::from_cartesian`. -/
noncomputable def from_cartesian (x y z : ℝ) : ℝ × ℝ :=
  let r := Real.sqrt (x * x + y * y + z * z)
  (Angle.atan2 y x, Angle.from_radians (0.5 * π - Real.arccos (z / r)))

/-- `Coord::dist`: angular separation by the spherical law of cosines. -/
noncomputable def dist (c from_ : ℝ × ℝ) : ℝ :=
  let a1 := c.1
  let d1 := c.2
  let a2 := from_.1
  let d2 := from_.2
  Angle.acos (Angle.sin d1 * Angle.sin d2 +
    Angle.cos d1 * Angle.cos d2 * Angle.cos (Angle.sub a1 a2))

end Coord

/-! ## `Planet` and the Sun (`src/sol.rs`) -/

/-- Keplerian orbital elements and correction data of a planet
(`sol::Planet`); the six-element `rates` array is spelled out as six
fields. -/
structure Planet where
  number : ℕ
  name : String
  a : ℝ
  e : ℝ
  i : ℝ
  l : ℝ
  w : ℝ
  o : ℝ
  rates0 : ℝ
  rates1 : ℝ
  rates2 : ℝ
  rates3 : ℝ
  rates4 : ℝ
  rates5 : ℝ
  extra : Option (ℝ × ℝ × ℝ × ℝ)
  theta0 : ℝ
  v0 : ℝ

/-- The mean-anomaly normalisation loop of `Planet::locationcart`:
`while m > 180.0 { m -= 360.0; }` in closed form (see
`normalizeM_eq_loop` for the loop equation). -/
noncomputable def normalizeM (m : ℝ) : ℝ :=
  if 180 < m then m - 360 * ⌈(m - 180) / 360⌉ else m

/-- `normalizeM` satisfies the defining equation of the `while` loop. -/
theorem normalizeM_eq_loop (m : ℝ) :
    normalizeM m = if 180 < m then normalizeM (m - 360) else m := by
  unfold normalizeM
  by_cases h : 180 < m
  · rw [if_pos h, if_pos h]
    by_cases h2 : 180 < m - 360
    · rw [if_pos h2]
      have harg : (m - 180) / 360 = (m - 360 - 180) / 360 + 1 := by ring
      rw [harg, Int.ceil_add_one]
      push_cast
      ring
    · rw [if_neg h2]
      have hc : ⌈(m - 180) / 360⌉ = 1 := by
        rw [Int.ceil_eq_iff]
        constructor
        · push_cast
          nlinarith
        · push_cast
          nlinarith [not_lt.mp h2]
      rw [hc]
      push_cast
      ring
  · rw [if_neg h, if_neg h]

theorem normalizeM_le (m : ℝ) : normalizeM m ≤ 180 := by
  unfold normalizeM
  by_cases h : 180 < m
  · rw [if_pos h]
    have := Int.le_ceil ((m - 180) / 360)
    nlinarith
  · rw [if_neg h]; exact not_lt.mp h

theorem neg_lt_normalizeM {m : ℝ} (h : -180 < m) : -180 < normalizeM m := by
  unfold normalizeM
  by_cases h1 : 180 < m
  · rw [if_pos h1]
    have := Int.ceil_lt_add_one ((m - 180) / 360)
    nlinarith
  · rw [if_neg h1]; exact h

namespace Planet

/-- The inner `kepler` closure of `Planet::locationcart`: a Newton step in
degree units (`e.to_degrees()` is `e * 180/π`). -/
noncomputable def keplerStep (m e ee : ℝ) : ℝ :=
  (m - (ee - e * (180 / π) * Real.sin (ee * (π / 180)))) /
    (1 - e * Real.cos (ee * (π / 180)))

/-- The `while de.abs() > 1e-7` Newton loop of `Planet::locationcart`,
with explicit fuel standing in for the unbounded iteration (`de` starts at
`1.0`). -/
noncomputable def solveE (m e : ℝ) : ℕ → ℝ → ℝ → ℝ
  | 0, _, ee => ee
  | fuel + 1, de, ee =>
      if 1e-7 < |de| then
        solveE m e fuel (keplerStep m e ee) (ee + keplerStep m e ee)
      else ee

/-- Fuel used by the embedding of the Newton loop. -/
def keplerFuel : ℕ := 60

/-- The mean anomaly of `Planet::locationcart` before normalisation:
`l - w` of the linearly propagated elements plus the optional extra
correction terms; `t` is in Julian centuries. -/
noncomputable def meanAnomalyRaw (p : Planet) (t : ℝ) : ℝ :=
  (p.l + p.rates3 * t) - (p.w + p.rates4 * t) +
    match p.extra with
    | none => 0
    | some (b, c, s, f) =>
        b * t * t + c * Real.cos (f * t * (π / 180)) +
          s * Real.sin (f * t * (π / 180))

/-- The mean anomaly actually fed to the Kepler iteration: the raw mean
anomaly after the `while m > 180.0 { m -= 360.0 }` loop. -/
noncomputable def keplerInputM (p : Planet) (d : ℝ) : ℝ :=
  normalizeM (meanAnomalyRaw p (Date.centuries d))

/-- `Planet::locationcart`: heliocentric equatorial cartesian position. -/
noncomputable def locationcart (p : Planet) (d : ℝ) : ℝ × ℝ × ℝ :=
  let t := Date.centuries d
  let a := p.a + p.rates0 * t
  let e := p.e + p.rates1 * t
  let o := p.o + p.rates5 * t
  let i := (p.i + p.rates2 * t) * (π / 180)
  let ww := ((p.w + p.rates4 * t) - o) * (π / 180)
  let m := keplerInputM p d
  let ee := solveE m e keplerFuel 1 (m + 57.29578 * e * Real.sin (m * (π / 180)))
  let xp := a * (Real.cos (ee * (π / 180)) - e)
  let yp := a * Real.sqrt (1 - e * e) * Real.sin (ee * (π / 180))
  let orad := o * (π / 180)
  let xecl := (Real.cos ww * Real.cos orad - Real.sin ww * Real.sin orad * Real.cos i) * xp
    + (-Real.sin ww * Real.cos orad - Real.cos ww * Real.sin orad * Real.cos i) * yp
  let yecl := (Real.cos ww * Real.sin orad + Real.sin ww * Real.cos orad * Real.cos i) * xp
    + (-Real.sin ww * Real.sin orad + Real.cos ww * Real.cos orad * Real.cos i) * yp
  let zecl := (Real.sin ww * Real.sin i) * xp + (Real.cos ww * Real.sin i) * yp
  let eps := (23.43928 : ℝ) * (π / 180)
  (xecl, Real.cos eps * yecl - Real.sin eps * zecl,
    Real.sin eps * yecl + Real.cos eps * zecl)

end Planet

/-- `sol::MERCURY`. -/
noncomputable def MERCURY : Planet :=
  { number := 0, name := "Mercury", a := 0.38709927, e := 0.20563593,
    i := 7.00497902, l := 252.25032350, w := 77.45779628, o := 48.33076593,
    rates0 := 0.00000037, rates1 := 0.00001906, rates2 := -0.00594749,
    rates3 := 149472.67411175, rates4 := 0.16047689, rates5 := -0.12534081,
    extra := none, theta0 := 0.0017972222, v0 := -0.42 }

/-- `sol::VENUS`. -/
noncomputable def VENUS : Planet :=
  { number := 1, name := "Venus", a := 0.72333566, e := 0.00677672,
    i := 3.39467605, l := 181.97909950, w := 131.60246718, o := 76.67984255,
    rates0 := 0.00000390, rates1 := -0.00004107, rates2 := -0.00078890,
    rates3 := 58517.81538729, rates4 := 0.00268329, rates5 := -0.27769418,
    extra := none, theta0 := 0.0047, v0 := -4.4 }

/-- `sol::EARTH` (the Earth-Moon barycenter). -/
noncomputable def EARTH : Planet :=
  { number := 2, name := "Earth", a := 1.00000261, e := 0.01671123,
    i := -0.00001531, l := 100.46457166, w := 102.93768193, o := 0.0,
    rates0 := 0.00000562, rates1 := -0.00004392, rates2 := -0.01294668,
    rates3 := 35999.37244981, rates4 := 0.32327364, rates5 := 0.0,
    extra := none, theta0 := 180.0, v0 := -12.0 }

/-- `sol::MARS`. -/
noncomputable def MARS : Planet :=
  { number := 3, name := "Mars", a := 1.52371034, e := 0.09339410,
    i := 1.84969142, l := -4.55343205, w := -23.94362959, o := 49.55953891,
    rates0 := 0.00001847, rates1 := 0.00007882, rates2 := -0.00813131,
    rates3 := 19140.30268499, rates4 := 0.44441088, rates5 := -0.29257343,
    extra := none, theta0 := 0.0026, v0 := -1.52 }

/-- `sol::JUPITER`. -/
noncomputable def JUPITER : Planet :=
  { number := 4, name := "Jupiter", a := 5.20248019, e := 0.04853590,
    i := 1.29861416, l := 34.33479152, w := 14.27495244, o := 100.29282654,
    rates0 := -0.00002864, rates1 := 0.00018026, rates2 := -0.00322699,
    rates3 := 3034.90371757, rates4 := 0.18199196, rates5 := 0.13024619,
    extra := some (-0.00012452, 0.06064060, -0.35635438, 38.35125000),
    theta0 := 0.05465, v0 := -9.4 }

/-- `sol::SATURN`. -/
noncomputable def SATURN : Planet :=
  { number := 5, name := "Saturn", a := 9.54149883, e := 0.05550825,
    i := 2.49424102, l := 50.07571329, w := 92.86136063, o := 113.63998702,
    rates0 := -0.00003065, rates1 := -0.00032044, rates2 := 0.00451969,
    rates3 := 1222.11494724, rates4 := 0.54179478, rates5 := -0.25015002,
    extra := some (0.00025899, -0.13434469, 0.87320147, 38.35125000),
    theta0 := 0.046, v0 := -8.9 }

/-- `sol::URANUS`. -/
noncomputable def URANUS : Planet :=
  { number := 6, name := "Uranus", a := 19.18797948, e := 0.04685740,
    i := 0.77298127, l := 314.20276625, w := 172.43404441, o := 73.96250215,
    rates0 := -0.00020455, rates1 := -0.00001550, rates2 := -0.00180155,
    rates3 := 428.49512595, rates4 := 0.09266985, rates5 := 0.05739699,
    extra := some (0.00058331, -0.97731848, 0.17689245, 7.67025000),
    theta0 := 0.0182777777, v0 := -7.19 }

/-- `sol::NEPTUNE`. -/
noncomputable def NEPTUNE : Planet :=
  { number := 7, name := "Neptune", a := 30.06952752, e := 0.00895439,
    i := 1.77005520, l := 304.22289287, w := 46.68158724, o := 131.78635853,
    rates0 := 0.00006447, rates1 := 0.00000818, rates2 := 0.00022400,
    rates3 := 218.46515314, rates4 := 0.01009938, rates5 := -0.00606302,
    extra := some (-0.00041348, 0.68346318, -0.10162547, 7.67025000),
    theta0 := 0.0172777777, v0 := -6.87 }

/-- `sol::PLUTO`. -/
noncomputable def PLUTO : Planet :=
  { number := 8, name := "Pluto", a := 39.48686035, e := 0.24885238,
    i := 17.14104260, l := 238.96535011, w := 224.09702598, o := 110.30167986,
    rates0 := 0.00449751, rates1 := 0.00006016, rates2 := 0.00000501,
    rates3 := 145.18042903, rates4 := -0.00968827, rates5 := -0.00809981,
    extra := none, theta0 := 0.0022777777, v0 := -1.0 }

/-! The `sol::sun` module. -/

namespace sun

/-- `sun::locationcart`: truncated VSOP series for the Sun's geocentric
equatorial cartesian position. -/
noncomputable def locationcart (d : ℝ) : ℝ × ℝ × ℝ :=
  let t := Date.centuries d / 10
  let y := 0.00010466965 * Real.cos (0.09641690558 + 18849.2275499742 * t)
    + 0.00835292314 * Real.cos (0.13952878991 + 12566.1516999828 * t) - 0.02442699036
    + 0.99989211030 * Real.cos (0.18265890456 + 6283.07584999140 * t)
    + (0.00093046324 + 0.00051506609 * Real.cos (4.43180499286 + 12566.1516999828 * t)) * t
  let x := 0.00561144206 + 0.00010466628 * Real.cos (1.66722645223 + 18849.2275499742 * t)
    + 0.00835257300 * Real.cos (1.71034539450 + 12566.1516999828 * t)
    + 0.99982928844 * Real.cos (1.75348568475 + 6283.07584999140 * t)
    + (0.00123403056 + 0.00051500156 * Real.cos (6.00266267204 + 12566.1516999828 * t)) * t
  let z := 0.00227822442 * Real.cos (3.41372504278 + 6283.07584999140 * t) * t
  (-(x + y * 0.000000440360 + z * -0.000000190919),
   -(x * -0.000000479966 + y * 0.917482137087 + z * -0.397776982902),
   -(y * 0.397776982902 + z * 0.917482137087))

/-- `sun::location`. -/
noncomputable def location (d : ℝ) : ℝ × ℝ :=
  let c := locationcart d
  Coord.from_cartesian c.1 c.2.1 c.2.2

/-- `sun::distance`. -/
noncomputable def distance (d : ℝ) : ℝ :=
  let c := locationcart d
  Real.sqrt (c.1 * c.1 + c.2.1 * c.2.1 + c.2.2 * c.2.2)

end sun

namespace Planet

/-- `Planet::location`: geocentric coordinates; Earth itself
(`number == 2`) short-circuits to the default coordinate pair. -/
noncomputable def location (p : Planet) (d : ℝ) : ℝ × ℝ :=
  let c := locationcart p d
  if p.number = 2 then Coord.default
  else
    let e := locationcart EARTH d
    Coord.from_cartesian (c.1 - e.1) (c.2.1 - e.2.1) (c.2.2 - e.2.2)

/-- `Planet::distance`: geocentric distance in AU; Earth itself returns 0. -/
noncomputable def distance (p : Planet) (d : ℝ) : ℝ :=
  if p.number = 2 then 0
  else
    let c := locationcart p d
    let e := locationcart EARTH d
    Real.sqrt ((c.1 - e.1) * (c.1 - e.1) + (c.2.1 - e.2.1) * (c.2.1 - e.2.1)
      + (c.2.2 - e.2.2) * (c.2.2 - e.2.2))

/-- `Planet::phaseangle`: law of sines in the Sun–planet–Earth triangle. -/
noncomputable def phaseangle (p : Planet) (d : ℝ) : ℝ :=
  let sep := Coord.dist (sun.location d) (location p d)
  let c := locationcart p d
  let sp := Real.sqrt (c.1 * c.1 + c.2.1 * c.2.1 + c.2.2 * c.2.2)
  Angle.asin (1.0 * (Angle.sin sep / sp))

/-- `Planet::illumfrac`: illuminated fraction, with the quadrant branch on
`number > 2`. -/
noncomputable def illumfrac (p : Planet) (d : ℝ) : ℝ :=
  if 2 < p.number then 0.5 * (1 + Angle.cos (phaseangle p d))
  else 0.5 * (1 - Angle.cos (phaseangle p d))

end Planet

/-- **C8** (confirmed).  Asking for Earth's position relative to Earth is a
well-defined degenerate result: `Planet::location` on the Earth record
returns the default (zero) coordinate pair and `Planet::distance` returns
exactly `0.0`; no NaN propagation. -/
theorem c8_earth_self_reference (d : ℝ) :
    Planet.location EARTH d = Coord.default ∧ Planet.distance EARTH d = 0 := by
  constructor
  · simp [Planet.location, EARTH]
  · simp [Planet.distance, EARTH]

/-- **C6** (corrected) — counterexample.  The normalisation loop
`while m > 180.0 { m -= 360.0 }` only reduces from above: for the Earth
record at Julian day 2415020.0 (one Julian century before J2000, so
`t = -1`), the pre-normalisation mean anomaly is −36001.52228644°, the
loop leaves it unchanged, and the value fed to the Kepler iteration is far
below −180°, contradicting the claim that it always lies in (−180°, 180°]. -/
theorem c6_mean_anomaly_counterexample :
    Planet.keplerInputM EARTH 2415020 < -180 := by
  have ht : Date.centuries 2415020 = -1 := by
    unfold Date.centuries; norm_num
  have hraw : Planet.meanAnomalyRaw EARTH (-1) = -36001.52228644 := by
    simp only [Planet.meanAnomalyRaw, EARTH]
    norm_num
  unfold Planet.keplerInputM
  rw [ht, hraw]
  unfold normalizeM
  rw [if_neg (by norm_num)]
  norm_num

/-- **C6** (corrected) — amended claim.  After the loop the mean anomaly
fed to the Kepler solve is always ≤ 180°, it lies in (−180°, 180°]
exactly when the *pre*-normalisation mean anomaly exceeds −180°, and the
loop never raises a value that is at or below −180°: such a value passes
through the loop unchanged (which happens for every planet at
sufficiently early dates). -/
theorem c6_mean_anomaly_amended (p : Planet) (d : ℝ) :
    Planet.keplerInputM p d ≤ 180 ∧
    (Planet.keplerInputM p d ∈ Set.Ioc (-180 : ℝ) 180 ↔
      -180 < Planet.meanAnomalyRaw p (Date.centuries d)) ∧
    (Planet.meanAnomalyRaw p (Date.centuries d) ≤ -180 →
      Planet.keplerInputM p d = Planet.meanAnomalyRaw p (Date.centuries d)) := by
  unfold Planet.keplerInputM
  have hpass : Planet.meanAnomalyRaw p (Date.centuries d) ≤ -180 →
      normalizeM (Planet.meanAnomalyRaw p (Date.centuries d)) =
        Planet.meanAnomalyRaw p (Date.centuries d) := by
    intro h
    have hnot : ¬ 180 < Planet.meanAnomalyRaw p (Date.centuries d) := by linarith
    unfold normalizeM
    rw [if_neg hnot]
  refine ⟨normalizeM_le _, ⟨?_, fun h => ⟨neg_lt_normalizeM h, normalizeM_le _⟩⟩, hpass⟩
  intro hmem
  by_contra hle
  push_neg at hle
  rw [hpass hle] at hmem
  linarith [hmem.1]

/-- Witness for the amended C6 at the Earth record on J2000 itself
(raw mean anomaly −2.47311027°, inside (−180, 180]). -/
theorem c6_mean_anomaly_amended_witness :
    (-180 < Planet.meanAnomalyRaw EARTH (Date.centuries 2451545)) ∧
    Planet.keplerInputM EARTH 2451545 ∈ Set.Ioc (-180 : ℝ) 180 := by
  have ht : Date.centuries 2451545 = 0 := by
    unfold Date.centuries; norm_num
  have hraw : -180 < Planet.meanAnomalyRaw EARTH (Date.centuries 2451545) := by
    rw [ht]
    simp only [Planet.meanAnomalyRaw, EARTH]
    norm_num
  exact ⟨hraw, ((c6_mean_anomaly_amended EARTH 2451545).2.1).mpr hraw⟩

/-! ### Heliocentric distance of `Planet::locationcart`

The three rotations of `locationcart` are orthogonal, so the norm of the
resulting vector is `a * (1 - e * cos E)`; in particular it is at least
`a * (1 - e)` whatever the Kepler solver returned. -/

theorem rot_norm_sq (cw sw co so ci si ce se P Q : ℝ)
    (h1 : sw ^ 2 + cw ^ 2 = 1) (h2 : so ^ 2 + co ^ 2 = 1)
    (h3 : si ^ 2 + ci ^ 2 = 1) (h4 : se ^ 2 + ce ^ 2 = 1) :
    ((cw * co - sw * so * ci) * P + (-sw * co - cw * so * ci) * Q) ^ 2 +
      (ce * ((cw * so + sw * co * ci) * P + (-sw * so + cw * co * ci) * Q) -
        se * ((sw * si) * P + (cw * si) * Q)) ^ 2 +
      (se * ((cw * so + sw * co * ci) * P + (-sw * so + cw * co * ci) * Q) +
        ce * ((sw * si) * P + (cw * si) * Q)) ^ 2 = P ^ 2 + Q ^ 2 := by
  linear_combination (P ^ 2 + Q ^ 2) * h1 +
    ((P * cw - Q * sw) ^ 2 + ci ^ 2 * (P * sw + Q * cw) ^ 2) * h2 +
    (P * sw + Q * cw) ^ 2 * h3 +
    (((cw * so + sw * co * ci) * P + (-sw * so + cw * co * ci) * Q) ^ 2 +
      ((sw * si) * P + (cw * si) * Q) ^ 2) * h4

theorem ellipse_norm_sq (A EC cE sE s : ℝ) (hs : s ^ 2 = 1 - EC ^ 2)
    (hc : sE ^ 2 + cE ^ 2 = 1) :
    (A * (cE - EC)) ^ 2 + (A * s * sE) ^ 2 = (A * (1 - EC * cE)) ^ 2 := by
  linear_combination (A ^ 2 * sE ^ 2) * hs + (A ^ 2 * (1 - EC ^ 2)) * hc

set_option maxHeartbeats 1600000 in
theorem full_pipeline_norm (A EC cE sE s cw sw co so ci si ce se : ℝ)
    (h1 : sw ^ 2 + cw ^ 2 = 1) (h2 : so ^ 2 + co ^ 2 = 1)
    (h3 : si ^ 2 + ci ^ 2 = 1) (h4 : se ^ 2 + ce ^ 2 = 1)
    (hc : sE ^ 2 + cE ^ 2 = 1) (hs : s ^ 2 = 1 - EC ^ 2)
    (hA : 0 ≤ A) (hE0 : 0 ≤ EC) (hE1 : EC ≤ 1) (hcE : cE ≤ 1) :
    A * (1 - EC) ≤ Real.sqrt
      (((cw * co - sw * so * ci) * (A * (cE - EC)) +
          (-sw * co - cw * so * ci) * (A * s * sE)) *
        ((cw * co - sw * so * ci) * (A * (cE - EC)) +
          (-sw * co - cw * so * ci) * (A * s * sE)) +
       (ce * ((cw * so + sw * co * ci) * (A * (cE - EC)) +
            (-sw * so + cw * co * ci) * (A * s * sE)) -
          se * ((sw * si) * (A * (cE - EC)) + (cw * si) * (A * s * sE))) *
        (ce * ((cw * so + sw * co * ci) * (A * (cE - EC)) +
            (-sw * so + cw * co * ci) * (A * s * sE)) -
          se * ((sw * si) * (A * (cE - EC)) + (cw * si) * (A * s * sE))) +
       (se * ((cw * so + sw * co * ci) * (A * (cE - EC)) +
            (-sw * so + cw * co * ci) * (A * s * sE)) +
          ce * ((sw * si) * (A * (cE - EC)) + (cw * si) * (A * s * sE))) *
        (se * ((cw * so + sw * co * ci) * (A * (cE - EC)) +
            (-sw * so + cw * co * ci) * (A * s * sE)) +
          ce * ((sw * si) * (A * (cE - EC)) + (cw * si) * (A * s * sE)))) := by
  have e2 := rot_norm_sq cw sw co so ci si ce se (A * (cE - EC)) (A * s * sE)
    h1 h2 h3 h4
  have e1 := ellipse_norm_sq A EC cE sE s hs hc
  have key : (((cw * co - sw * so * ci) * (A * (cE - EC)) +
          (-sw * co - cw * so * ci) * (A * s * sE)) *
        ((cw * co - sw * so * ci) * (A * (cE - EC)) +
          (-sw * co - cw * so * ci) * (A * s * sE)) +
       (ce * ((cw * so + sw * co * ci) * (A * (cE - EC)) +
            (-sw * so + cw * co * ci) * (A * s * sE)) -
          se * ((sw * si) * (A * (cE - EC)) + (cw * si) * (A * s * sE))) *
        (ce * ((cw * so + sw * co * ci) * (A * (cE - EC)) +
            (-sw * so + cw * co * ci) * (A * s * sE)) -
          se * ((sw * si) * (A * (cE - EC)) + (cw * si) * (A * s * sE))) +
       (se * ((cw * so + sw * co * ci) * (A * (cE - EC)) +
            (-sw * so + cw * co * ci) * (A * s * sE)) +
          ce * ((sw * si) * (A * (cE - EC)) + (cw * si) * (A * s * sE))) *
        (se * ((cw * so + sw * co * ci) * (A * (cE - EC)) +
            (-sw * so + cw * co * ci) * (A * s * sE)) +
          ce * ((sw * si) * (A * (cE - EC)) + (cw * si) * (A * s * sE)))) =
      (A * (1 - EC * cE)) ^ 2 := by
    linear_combination e2 + e1
  have h5 : EC * cE ≤ EC * 1 := mul_le_mul_of_nonneg_left hcE hE0
  have hpos : (0 : ℝ) ≤ 1 - EC * cE := by linarith
  rw [key, Real.sqrt_sq (mul_nonneg hA hpos)]
  exact mul_le_mul_of_nonneg_left (by linarith) hA

/-- The heliocentric distance computed from `Planet::locationcart` is at
least `a * (1 - e)` (propagated elements), for any outcome of the Kepler
iteration. -/
theorem locationcart_norm_ge (p : Planet) (d : ℝ)
    (ha : 0 ≤ p.a + p.rates0 * Date.centuries d)
    (he0 : 0 ≤ p.e + p.rates1 * Date.centuries d)
    (he1 : p.e + p.rates1 * Date.centuries d ≤ 1) :
    (p.a + p.rates0 * Date.centuries d) *
        (1 - (p.e + p.rates1 * Date.centuries d)) ≤
      Real.sqrt ((Planet.locationcart p d).1 * (Planet.locationcart p d).1 +
        (Planet.locationcart p d).2.1 * (Planet.locationcart p d).2.1 +
        (Planet.locationcart p d).2.2 * (Planet.locationcart p d).2.2) := by
  simp only [Planet.locationcart]
  exact full_pipeline_norm
    (p.a + p.rates0 * Date.centuries d)
    (p.e + p.rates1 * Date.centuries d)
    (Real.cos (Planet.solveE (Planet.keplerInputM p d)
        (p.e + p.rates1 * Date.centuries d) Planet.keplerFuel 1
        (Planet.keplerInputM p d + 57.29578 * (p.e + p.rates1 * Date.centuries d) *
          Real.sin (Planet.keplerInputM p d * (π / 180))) * (π / 180)))
    (Real.sin (Planet.solveE (Planet.keplerInputM p d)
        (p.e + p.rates1 * Date.centuries d) Planet.keplerFuel 1
        (Planet.keplerInputM p d + 57.29578 * (p.e + p.rates1 * Date.centuries d) *
          Real.sin (Planet.keplerInputM p d * (π / 180))) * (π / 180)))
    (Real.sqrt (1 - (p.e + p.rates1 * Date.centuries d) *
      (p.e + p.rates1 * Date.centuries d)))
    (Real.cos (((p.w + p.rates4 * Date.centuries d) -
      (p.o + p.rates5 * Date.centuries d)) * (π / 180)))
    (Real.sin (((p.w + p.rates4 * Date.centuries d) -
      (p.o + p.rates5 * Date.centuries d)) * (π / 180)))
    (Real.cos ((p.o + p.rates5 * Date.centuries d) * (π / 180)))
    (Real.sin ((p.o + p.rates5 * Date.centuries d) * (π / 180)))
    (Real.cos ((p.i + p.rates2 * Date.centuries d) * (π / 180)))
    (Real.sin ((p.i + p.rates2 * Date.centuries d) * (π / 180)))
    (Real.cos ((23.43928 : ℝ) * (π / 180)))
    (Real.sin ((23.43928 : ℝ) * (π / 180)))
    (Real.sin_sq_add_cos_sq _) (Real.sin_sq_add_cos_sq _)
    (Real.sin_sq_add_cos_sq _) (Real.sin_sq_add_cos_sq _)
    (Real.sin_sq_add_cos_sq _)
    (by rw [Real.sq_sqrt (by nlinarith)]; ring)
    ha he0 he1 (Real.cos_le_one _)

/-- `Angle::cos` of `Planet::phaseangle` is strictly positive whenever the
heliocentric distance exceeds 1 AU (the `asin` argument then has absolute
value below 1). -/
theorem cos_phaseangle_pos (p : Planet) (d : ℝ)
    (h : 1 < Real.sqrt ((Planet.locationcart p d).1 * (Planet.locationcart p d).1 +
      (Planet.locationcart p d).2.1 * (Planet.locationcart p d).2.1 +
      (Planet.locationcart p d).2.2 * (Planet.locationcart p d).2.2)) :
    0 < Angle.cos (Planet.phaseangle p d) := by
  unfold Planet.phaseangle
  set sep := Coord.dist (sun.location d) (Planet.location p d) with hsep
  set sp := Real.sqrt ((Planet.locationcart p d).1 * (Planet.locationcart p d).1 +
    (Planet.locationcart p d).2.1 * (Planet.locationcart p d).2.1 +
    (Planet.locationcart p d).2.2 * (Planet.locationcart p d).2.2) with hsp
  have hsppos : (0 : ℝ) < sp := lt_trans one_pos h
  have hx : |(1.0 : ℝ) * (Angle.sin sep / sp)| < 1 := by
    unfold Angle.sin
    rw [show (1.0 : ℝ) * (Real.sin sep / sp) = Real.sin sep / sp from by norm_num,
      abs_div, abs_of_pos hsppos, div_lt_one hsppos]
    calc |Real.sin sep| ≤ 1 := abs_le.mpr ⟨Real.neg_one_le_sin _, Real.sin_le_one _⟩
      _ < sp := h
  unfold Angle.cos Angle.asin
  rw [Angle.cos_from_radians, Real.cos_arcsin]
  apply Real.sqrt_pos.mpr
  have hb := abs_lt.mp hx
  nlinarith [hb.1, hb.2]

/-- **C7** (corrected) — counterexample.  For Mars (planet number 3 > 2)
at J2000 (Julian day 2451545.0), `Planet::illumfrac` takes the
`0.5 * (1 + cos)` branch, and the cosine of the phase angle is strictly
positive (Mars' heliocentric distance exceeds 1 AU, so the `asin` argument
is strictly inside (−1, 1)); hence `illumfrac` differs from the claimed
`0.5 * (1 − cos(phaseangle))`. -/
theorem c7_illumfrac_counterexample :
    Planet.illumfrac MARS 2451545 ≠
      0.5 * (1 - Angle.cos (Planet.phaseangle MARS 2451545)) := by
  have ht : Date.centuries 2451545 = 0 := by unfold Date.centuries; norm_num
  have hnorm := locationcart_norm_ge MARS 2451545
    (by rw [ht]; simp only [MARS]; norm_num)
    (by rw [ht]; simp only [MARS]; norm_num)
    (by rw [ht]; simp only [MARS]; norm_num)
  have hgt : 1 < Real.sqrt ((Planet.locationcart MARS 2451545).1 *
      (Planet.locationcart MARS 2451545).1 +
      (Planet.locationcart MARS 2451545).2.1 * (Planet.locationcart MARS 2451545).2.1 +
      (Planet.locationcart MARS 2451545).2.2 * (Planet.locationcart MARS 2451545).2.2) := by
    refine lt_of_lt_of_le ?_ hnorm
    rw [ht]
    simp only [MARS]
    norm_num
  have hcos := cos_phaseangle_pos MARS 2451545 hgt
  unfold Planet.illumfrac
  rw [if_pos (by simp [MARS] : 2 < MARS.number)]
  intro hcontra
  nlinarith

/-- **C7** (corrected) — amended claim.  `Planet::illumfrac` returns
`0.5 * (1 − cos(phaseangle))` exactly for the planets numbered ≤ 2
(Mercury, Venus, Earth); for planets numbered above 2 it returns
`0.5 * (1 + cos(phaseangle))`. -/
theorem c7_illumfrac_amended (p : Planet) (d : ℝ) :
    (p.number ≤ 2 →
      Planet.illumfrac p d = 0.5 * (1 - Angle.cos (Planet.phaseangle p d))) ∧
    (2 < p.number →
      Planet.illumfrac p d = 0.5 * (1 + Angle.cos (Planet.phaseangle p d))) := by
  unfold Planet.illumfrac
  constructor
  · intro h; rw [if_neg (not_lt.mpr h)]
  · intro h; rw [if_pos h]

/-- Witness for the amended C7 at Venus (number 1 ≤ 2) and J2000. -/
theorem c7_illumfrac_amended_witness :
    VENUS.number ≤ 2 ∧
    Planet.illumfrac VENUS 2451545 =
      0.5 * (1 - Angle.cos (Planet.phaseangle VENUS 2451545)) := by
  have h : VENUS.number ≤ 2 := by simp [VENUS]
  exact ⟨h, (c7_illumfrac_amended VENUS 2451545).1 h⟩

namespace Angle

/-- `Angle::gst`: Greenwich sidereal time from a civil time angle. -/
noncomputable def gst (x dj : ℝ) : ℝ :=
  from_decimal (6.697374558 + (2400.051336 * Date.centuries dj) +
    (0.000025862 * (Date.centuries dj * Date.centuries dj)) +
    (decimal x * 1.002737909))

/-- `Angle::ungst`: near-inverse of `gst`. -/
noncomputable def ungst (x dj : ℝ) : ℝ :=
  mul (sub x (from_decimal (6.697374558 + (2400.051336 * Date.centuries dj) +
    (0.000025862 * (Date.centuries dj * Date.centuries dj))))) 0.9972695663

end Angle

/-- `Period::acos` on a possibly out-of-range argument, as used by
`Coord::riseset`.  In the source the float `acos` yields NaN for arguments
outside `[-1, 1]` and the caller tests `is_nan`; the NaN case is modelled
as `none`. -/
noncomputable def acosOpt (x : ℝ) : Option ℝ :=
  if x < -1 ∨ 1 < x then none else some (Angle.acos x)

namespace Coord

/-- `Coord::riseset`: local sidereal rise and set times, `none` when one of
the two `acos` arguments is out of range (the NaN test of the source). -/
noncomputable def riseset (ra de dj lat longi : ℝ) : Option (ℝ × ℝ) :=
  match acosOpt (Angle.sin de / Angle.cos lat),
      acosOpt (-(Angle.tan lat * Angle.tan de)) with
  | some _, some h =>
      some (Angle.ungst (Angle.sub (Angle.sub ra h) longi) dj,
            Angle.ungst (Angle.sub (Angle.add ra h) longi) dj)
  | _, _ => none

end Coord

/-- **C3** (confirmed).  `Coord::riseset` returns `none` exactly when one
of the two `acos` arguments — `-(tan lat * tan de)` for the hour angle or
the auxiliary `sin de / cos lat` — falls outside `[-1, 1]` (the NaN cases
of the float code); in every other case it returns `some` pair of times
(no numeric sentinel is ever used). -/
theorem c3_riseset_none_iff (ra de dj lat longi : ℝ) :
    (Coord.riseset ra de dj lat longi = none ↔
      ((Angle.sin de / Angle.cos lat < -1 ∨ 1 < Angle.sin de / Angle.cos lat) ∨
       (-(Angle.tan lat * Angle.tan de) < -1 ∨ 1 < -(Angle.tan lat * Angle.tan de)))) ∧
    ((Coord.riseset ra de dj lat longi).isSome ↔
      ¬ ((Angle.sin de / Angle.cos lat < -1 ∨ 1 < Angle.sin de / Angle.cos lat) ∨
       (-(Angle.tan lat * Angle.tan de) < -1 ∨ 1 < -(Angle.tan lat * Angle.tan de)))) := by
  unfold Coord.riseset acosOpt
  by_cases h1 : Angle.sin de / Angle.cos lat < -1 ∨ 1 < Angle.sin de / Angle.cos lat
  · rw [if_pos h1]
    simp [h1]
  · rw [if_neg h1]
    by_cases h2 : -(Angle.tan lat * Angle.tan de) < -1 ∨
        1 < -(Angle.tan lat * Angle.tan de)
    · rw [if_pos h2]
      simp [h1]
      rcases h2 with h | h
      · exact ⟨Or.inl (by linarith), fun hx => by linarith⟩
      · exact ⟨Or.inr h, fun hx => h⟩
    · rw [if_neg h2]
      push_neg at h2
      simp [h1]
      exact ⟨by linarith [h2.1], by linarith [h2.2]⟩

/-! ## `Coord::horizon` / `Coord::from_horizon` (C5)

`hourangle_rightas` is referenced by `coord.rs` but its definition is not
part of the sources under `src/`; it is modelled from the spec below. -/

namespace Angle

/-- Modelled from the spec: `hourangle_rightas`, the right-ascension ↔
hour-angle conversion used by `Coord::horizon` and `Coord::from_horizon`.
The spec: "hour angle = GST(local-time, instant) + longitude −
right-ascension", the same involution in both directions. -/
noncomputable def hourangle_rightas (x dj time longi : ℝ) : ℝ :=
  sub (add (gst time dj) longi) x

theorem sin_asin {x : ℝ} (h1 : -1 ≤ x) (h2 : x ≤ 1) :
    Angle.sin (Angle.asin x) = x := by
  unfold Angle.sin Angle.asin
  rw [sin_from_radians, Real.sin_arcsin h1 h2]

theorem cos_asin (x : ℝ) :
    Angle.cos (Angle.asin x) = Real.sqrt (1 - x ^ 2) := by
  unfold Angle.cos Angle.asin
  rw [cos_from_radians, Real.cos_arcsin]

theorem acos_eq_arccos (x : ℝ) : Angle.acos x = Real.arccos x := by
  unfold Angle.acos
  apply from_radians_eq_self
  constructor
  · exact Real.arccos_nonneg x
  · calc Real.arccos x ≤ π := Real.arccos_le_pi x
      _ < TAU := by unfold TAU; nlinarith [pi_pos]

theorem cos_acos {x : ℝ} (h1 : -1 ≤ x) (h2 : x ≤ 1) :
    Angle.cos (Angle.acos x) = x := by
  rw [acos_eq_arccos]
  exact Real.cos_arccos h1 h2

theorem sin_acos (x : ℝ) :
    Angle.sin (Angle.acos x) = Real.sqrt (1 - x ^ 2) := by
  rw [acos_eq_arccos]
  exact Real.sin_arccos x

/-- `Angle::asin` lands in `[0, π/2] ∪ [3π/2, 2π)`: nonnegative arcsine
results are kept, negative ones wrap up by `2π`. -/
theorem asin_mem (x : ℝ) :
    Angle.asin x ∈ Set.Icc 0 (π / 2) ∪ Set.Ico (3 * π / 2) TAU := by
  have hpi := pi_pos
  have h1 := Real.neg_pi_div_two_le_arcsin x
  have h2 := Real.arcsin_le_pi_div_two x
  unfold Angle.asin
  rcases le_or_lt 0 (Real.arcsin x) with h | h
  · left
    rw [from_radians_eq_self ⟨h, by unfold TAU; nlinarith⟩]
    exact ⟨h, h2⟩
  · right
    have heq : from_radians (Real.arcsin x) = Real.arcsin x + 2 * π := by
      apply from_radians_eq_of
      · constructor
        · nlinarith
        · unfold TAU; nlinarith
      · exact ⟨-1, by unfold TAU; push_cast; ring⟩
    rw [heq]
    constructor
    · nlinarith
    · unfold TAU; nlinarith

/-- The angle `from_degrees (360 - degrees y)` is just `2π - y` wrapped. -/
theorem from_degrees_360_sub (y : ℝ) :
    from_degrees (360 - degrees y) = from_radians (TAU - y) := by
  unfold from_degrees degrees TAU
  congr 1
  have hpi := pi_pos.ne'
  field_simp
  ring

theorem cos_from_radians_tau_sub (y : ℝ) :
    Real.cos (from_radians (TAU - y)) = Real.cos y := by
  rw [cos_from_radians]
  unfold TAU
  rw [Real.cos_sub, Real.cos_two_pi, Real.sin_two_pi]
  ring

theorem sin_from_radians_tau_sub (y : ℝ) :
    Real.sin (from_radians (TAU - y)) = -Real.sin y := by
  rw [sin_from_radians]
  unfold TAU
  rw [Real.sin_sub, Real.cos_two_pi, Real.sin_two_pi]
  ring

/-- `hourangle_rightas` is an involution on `[0, 2π)`. -/
theorem hourangle_involution (x dj time longi : ℝ) (hx : x ∈ Set.Ico 0 TAU) :
    hourangle_rightas (hourangle_rightas x dj time longi) dj time longi = x := by
  unfold hourangle_rightas sub radians
  obtain ⟨k, hk⟩ := from_radians_sub_int (add (gst time dj) longi - x)
  rw [show add (gst time dj) longi -
      from_radians (add (gst time dj) longi - x) = x + TAU * k by linarith]
  rw [from_radians_congr ⟨k, by ring⟩]
  exact from_radians_eq_self hx

/-- `Angle::asin (sin de) = de` for a wrapped declination in the latitude
range `[0, π/2) ∪ (3π/2, 2π)`. -/
theorem asin_sin_wrapped {de : ℝ} (h0 : 0 ≤ de) (h2 : de < TAU)
    (hr : de < π / 2 ∨ 3 * π / 2 < de) :
    Angle.asin (Real.sin de) = de := by
  have hpi := pi_pos
  unfold Angle.asin
  rcases hr with h | h
  · rw [Real.arcsin_sin (by linarith) (by linarith)]
    exact from_radians_eq_self ⟨h0, h2⟩
  · have hsin : Real.sin de = Real.sin (de - 2 * π) := by
      rw [show de - 2 * π = de + (-1 : ℤ) * (2 * π) by push_cast; ring,
        Real.sin_add_int_mul_two_pi]
    rw [hsin, Real.arcsin_sin (by linarith) (by unfold TAU at h2; linarith)]
    apply from_radians_eq_of ⟨h0, h2⟩
    exact ⟨-1, by unfold TAU; push_cast; ring⟩

end Angle

/-- Cauchy–Schwarz-style bound: the altitude/declination `asin` argument
in the horizon conversions has absolute value at most 1. -/
theorem spherical_bound (a b c d e : ℝ) (h1 : a ^ 2 + c ^ 2 = 1)
    (h2 : b ^ 2 + d ^ 2 = 1) (he : |e| ≤ 1) : |a * b + c * d * e| ≤ 1 := by
  have he1 := abs_le.mp he
  rw [abs_le]
  constructor
  · rcases le_or_lt 0 (c * d) with h | h
    · nlinarith [sq_nonneg (a + b), sq_nonneg (c - d)]
    · nlinarith [sq_nonneg (a + b), sq_nonneg (c + d)]
  · rcases le_or_lt 0 (c * d) with h | h
    · nlinarith [sq_nonneg (a - b), sq_nonneg (c - d)]
    · nlinarith [sq_nonneg (a - b), sq_nonneg (c + d)]

/-- The key algebraic identity behind the azimuth quadrant rule:
`1 - S² - (sin de cos lat - sin lat cos de cos ha)² = cos² de sin² ha`
where `S` is the altitude sine. -/
theorem quadrant_identity (sd cd sl cl sh ch : ℝ) (hlat : sl ^ 2 + cl ^ 2 = 1)
    (hde : sd ^ 2 + cd ^ 2 = 1) (hha : sh ^ 2 + ch ^ 2 = 1) :
    1 - (sd * sl + cd * cl * ch) ^ 2 - (sd * cl - sl * cd * ch) ^ 2 =
      cd ^ 2 * sh ^ 2 := by
  linear_combination (-(sd ^ 2 + cd ^ 2 * ch ^ 2)) * hlat + (-1) * hde +
    (-(cd ^ 2)) * hha

namespace Coord

/-- `Coord::horizon`: azimuth and altitude of an equatorial coordinate. -/
noncomputable def horizon (ra de dj time lat longi : ℝ) : ℝ × ℝ :=
  let ha := Angle.hourangle_rightas ra dj time longi
  let alt := Angle.asin (Angle.sin de * Angle.sin lat +
    Angle.cos de * Angle.cos lat * Angle.cos ha)
  let azip := Angle.acos ((Angle.sin de - Angle.sin lat * Angle.sin alt) /
    (Angle.cos lat * Angle.cos alt))
  let azi := if Angle.sin ha < 0 then azip
    else Angle.from_degrees (360 - Angle.degrees azip)
  (azi, alt)

/-- `Coord::from_horizon`: equatorial coordinate from azimuth/altitude. -/
noncomputable def from_horizon (azi alt dj time lat longi : ℝ) : ℝ × ℝ :=
  let de := Angle.asin (Angle.sin alt * Angle.sin lat +
    Angle.cos alt * Angle.cos lat * Angle.cos azi)
  let hap := Angle.acos ((Angle.sin alt - Angle.sin lat * Angle.sin de) /
    (Angle.cos lat * Angle.cos de))
  let ha := if Angle.sin azi < 0 then hap
    else Angle.from_degrees (360 - Angle.degrees hap)
  Coord.from_equatorial (Angle.hourangle_rightas ha dj time longi) de

end Coord

/-- The first (degree) component of `degminsec` of any `Angle::asin` result
is never 180: the wrapped arcsine lies in `[0°, 90°] ∪ [270°, 360°)`. -/
theorem degminsec_asin_fst_ne_180 (x : ℝ) :
    (Angle.degminsec (Angle.asin x)).1 ≠ 180 := by
  have hpi := pi_pos
  have hmem := Angle.asin_mem x
  unfold Angle.degminsec
  dsimp only
  rcases hmem with h | h
  · have hdeg0 : 0 ≤ Angle.degrees (Angle.asin x) := by
      unfold Angle.degrees
      exact mul_nonneg h.1 (by positivity)
    have hdeg1 : Angle.degrees (Angle.asin x) ≤ 90 := by
      unfold Angle.degrees
      rw [show (90 : ℝ) = (π / 2) * (180 / π) by field_simp; ring]
      exact mul_le_mul_of_nonneg_right h.2 (by positivity)
    have hb : rtrunc (Angle.degrees (Angle.asin x)) ≤ 90 := by
      rw [rtrunc_eq_floor hdeg0]
      calc ⌊Angle.degrees (Angle.asin x)⌋ ≤ ⌊(90 : ℝ)⌋ := Int.floor_le_floor hdeg1
        _ = 90 := Int.floor_eq_iff.mpr ⟨by norm_num, by norm_num⟩
    omega
  · have hdeg0 : 0 ≤ Angle.degrees (Angle.asin x) := by
      unfold Angle.degrees
      exact mul_nonneg (le_trans (by positivity) h.1) (by positivity)
    have hdeg1 : 270 ≤ Angle.degrees (Angle.asin x) := by
      unfold Angle.degrees
      rw [show (270 : ℝ) = (3 * π / 2) * (180 / π) by field_simp; ring]
      exact mul_le_mul_of_nonneg_right h.1 (by positivity)
    have hb : 270 ≤ rtrunc (Angle.degrees (Angle.asin x)) := by
      rw [rtrunc_eq_floor hdeg0]
      exact Int.le_floor.mpr (by exact_mod_cast hdeg1)
    omega

/-- **C5** (corrected) — counterexample.  The round trip
`from_horizon(horizon(...))` does *not* reconstruct every equatorial pair:
for declination 180° (a legal stored `Angle`), the reconstructed
declination is an `asin` result lying in `[0°, 90°] ∪ [270°, 360°)`, so
even the coarse degree/arcminute equality fails (its degree component
cannot be 180).  Inputs: RA 0, Dec π, J2000, time 0, latitude 0,
longitude 0. -/
theorem c5_roundtrip_counterexample :
    ¬ Angle.eqCoarse
        (Coord.from_horizon (Coord.horizon 0 π 2451545 0 0 0).1
          (Coord.horizon 0 π 2451545 0 0 0).2 2451545 0 0 0).2 π := by
  intro hc
  have hpi := pi_pos
  have h1 := hc.1
  have hred : (Coord.from_horizon (Coord.horizon 0 π 2451545 0 0 0).1
      (Coord.horizon 0 π 2451545 0 0 0).2 2451545 0 0 0).2 =
      Angle.asin (Angle.sin ((Coord.horizon 0 π 2451545 0 0 0).2) * Angle.sin 0 +
        Angle.cos ((Coord.horizon 0 π 2451545 0 0 0).2) * Angle.cos 0 *
        Angle.cos ((Coord.horizon 0 π 2451545 0 0 0).1)) := rfl
  rw [hred] at h1
  have h2 : (Angle.degminsec π).1 = 180 := by
    unfold Angle.degminsec
    dsimp only
    rw [show Angle.degrees π = 180 from by unfold Angle.degrees; field_simp]
    rw [rtrunc_eq_floor (by norm_num)]
    exact Int.floor_eq_iff.mpr ⟨by norm_num, by norm_num⟩
  rw [h2] at h1
  exact degminsec_asin_fst_ne_180 _ h1

theorem sin_eq_zero_cases {x : ℝ} (h0 : 0 ≤ x) (h2 : x < 2 * π)
    (hs : Real.sin x = 0) : x = 0 ∨ x = π := by
  have hpi := pi_pos
  obtain ⟨n, hn⟩ := Real.sin_eq_zero_iff.mp hs
  have hn0 : 0 ≤ (n : ℝ) * π := by rw [hn]; exact h0
  have hn2 : (n : ℝ) * π < 2 * π := by rw [hn]; exact h2
  have hn0' : 0 ≤ n := by
    by_contra hneg
    have hn1 : n ≤ -1 := by omega
    have hn1' : (n : ℝ) ≤ -1 := by exact_mod_cast hn1
    nlinarith
  have hn2' : n < 2 := by
    by_contra hge
    have hge' : (2 : ℝ) ≤ (n : ℝ) := by exact_mod_cast not_lt.mp hge
    nlinarith
  interval_cases n
  · left; rw [← hn]; push_cast; ring
  · right; rw [← hn]; push_cast; ring

theorem gt_pi_of_sin_neg {x : ℝ} (h0 : 0 ≤ x) (hs : Real.sin x < 0) :
    π < x := by
  by_contra hle
  exact absurd (Real.sin_nonneg_of_nonneg_of_le_pi h0 (not_lt.mp hle))
    (not_le.mpr hs)

theorem lt_pi_of_sin_pos {x : ℝ} (_h0 : 0 ≤ x) (h2 : x < 2 * π)
    (hs : 0 < Real.sin x) : x < π := by
  have hpi := pi_pos
  by_contra hge
  have h1 : Real.sin x = -(Real.sin (x - π)) := by
    rw [Real.sin_sub_pi]; ring
  have hmem : 0 ≤ Real.sin (x - π) :=
    Real.sin_nonneg_of_nonneg_of_le_pi (by linarith [not_lt.mp hge])
      (by linarith)
  rw [h1] at hs
  linarith

set_option maxHeartbeats 1000000 in
/-- **C5** (corrected) — amended claim.  For every equatorial pair whose
declination is a valid latitude (wrapped into `[0, π/2) ∪ (3π/2, 2π)`), and
every date/time/latitude/longitude with `cos lat ≠ 0` and a nondegenerate
altitude (the altitude sine not equal to ±1), `from_horizon ∘ horizon`
reconstructs the right ascension and declination *exactly* (hence in
particular under the coarse degree/arcminute equality); the azimuth
quadrant rule on `sin(hour angle)` is undone by the rule on
`sin(azimuth)`. -/
theorem c5_roundtrip_amended (ra de dj time lat longi : ℝ)
    (hra : ra ∈ Set.Ico 0 TAU) (hde : de ∈ Set.Ico 0 TAU)
    (hdeLat : de < π / 2 ∨ 3 * π / 2 < de)
    (hcl : Angle.cos lat ≠ 0)
    (hSne : (Angle.sin de * Angle.sin lat + Angle.cos de * Angle.cos lat *
      Angle.cos (Angle.hourangle_rightas ra dj time longi)) ^ 2 ≠ 1) :
    Coord.from_horizon (Coord.horizon ra de dj time lat longi).1
      (Coord.horizon ra de dj time lat longi).2 dj time lat longi = (ra, de) := by
  have hpi := pi_pos
  simp only [Coord.horizon, Coord.from_horizon, Coord.from_equatorial]
  set ha := Angle.hourangle_rightas ra dj time longi with hhadef
  have hham : ha ∈ Set.Ico 0 TAU := by
    rw [hhadef]
    unfold Angle.hourangle_rightas Angle.sub
    exact Angle.from_radians_mem_Ico _
  obtain ⟨hha0, hhaT⟩ := hham
  clear_value ha
  have hhaT2 : ha < 2 * π := by unfold TAU at hhaT; linarith
  set S := Angle.sin de * Angle.sin lat + Angle.cos de * Angle.cos lat * Angle.cos ha
    with hSdef
  set alt := Angle.asin S with haltdef
  clear_value S alt
  -- trigonometric relations of the inputs
  have hde2sq : Angle.sin de ^ 2 + Angle.cos de ^ 2 = 1 := Real.sin_sq_add_cos_sq de
  have hlat2sq : Angle.sin lat ^ 2 + Angle.cos lat ^ 2 = 1 := Real.sin_sq_add_cos_sq lat
  have hha2sq : Angle.sin ha ^ 2 + Angle.cos ha ^ 2 = 1 := Real.sin_sq_add_cos_sq ha
  have hch1 : |Angle.cos ha| ≤ 1 :=
    abs_le.mpr ⟨Real.neg_one_le_cos ha, Real.cos_le_one ha⟩
  have hS1 : |S| ≤ 1 := by
    rw [hSdef]
    exact spherical_bound (Angle.sin de) (Angle.sin lat) (Angle.cos de)
      (Angle.cos lat) (Angle.cos ha) hde2sq hlat2sq hch1
  have habs := abs_le.mp hS1
  have hS2 : S ^ 2 < 1 :=
    lt_of_le_of_ne ((sq_le_one_iff_abs_le_one S).mpr hS1) hSne
  have hcaltpos : 0 < Real.sqrt (1 - S ^ 2) :=
    Real.sqrt_pos.mpr (by linarith only [hS2])
  have hsqrtsq : Real.sqrt (1 - S ^ 2) ^ 2 = 1 - S ^ 2 :=
    Real.sq_sqrt (by linarith only [hS2])
  have hsalt : Angle.sin alt = S := by
    rw [haltdef]; exact Angle.sin_asin habs.1 habs.2
  have hcalt : Angle.cos alt = Real.sqrt (1 - S ^ 2) := by
    rw [haltdef]; exact Angle.cos_asin S
  have hcd : 0 < Angle.cos de := by
    rcases hdeLat with h | h
    · exact Real.cos_pos_of_mem_Ioo ⟨by linarith [hde.1], h⟩
    · have hcongr : Angle.cos de = Real.cos (de - 2 * π) := by
        unfold Angle.cos
        rw [show de - 2 * π = de + (-1 : ℤ) * (2 * π) by push_cast; ring,
          Real.cos_add_int_mul_two_pi]
      rw [hcongr]
      apply Real.cos_pos_of_mem_Ioo
      constructor
      · linarith
      · have := hde.2; unfold TAU at this; linarith
  -- the azimuth acos argument
  set N := Angle.sin de * Angle.cos lat - Angle.sin lat * Angle.cos de * Angle.cos ha
    with hNdef
  clear_value N
  have hnum : Angle.sin de - Angle.sin lat * S = Angle.cos lat * N := by
    rw [hSdef, hNdef]
    linear_combination (-(Angle.sin de)) * hlat2sq
  have hargA : (Angle.sin de - Angle.sin lat * Angle.sin alt) /
      (Angle.cos lat * Angle.cos alt) = N / Real.sqrt (1 - S ^ 2) := by
    rw [hsalt, hcalt, hnum, mul_div_mul_left _ _ hcl]
  have hkey : (1 - S ^ 2) - N ^ 2 = Angle.cos de ^ 2 * Angle.sin ha ^ 2 := by
    rw [hSdef, hNdef]
    exact quadrant_identity (Angle.sin de) (Angle.cos de) (Angle.sin lat)
      (Angle.cos lat) (Angle.sin ha) (Angle.cos ha) hlat2sq hde2sq hha2sq
  have hargA2 : (N / Real.sqrt (1 - S ^ 2)) ^ 2 ≤ 1 := by
    rw [div_pow, hsqrtsq, div_le_one (by linarith only [hS2])]
    nlinarith only [hkey, sq_nonneg (Angle.cos de * Angle.sin ha)]
  have hargAabs := abs_le.mp ((sq_le_one_iff_abs_le_one _).mp hargA2)
  rw [hargA]
  set argA := N / Real.sqrt (1 - S ^ 2) with hargAdef
  clear_value argA
  set azip := Angle.acos argA with hazipdef
  clear_value azip
  have hcazip : Angle.cos azip = argA := by
    rw [hazipdef]; exact Angle.cos_acos hargAabs.1 hargAabs.2
  have hsazip : Angle.sin azip = Real.sqrt (1 - argA ^ 2) := by
    rw [hazipdef]; exact Angle.sin_acos argA
  have hsazip0 : 0 ≤ Angle.sin azip := by rw [hsazip]; positivity
  set azi := (if Angle.sin ha < 0 then azip
    else Angle.from_degrees (360 - Angle.degrees azip)) with hazidef
  clear_value azi
  have hcazi : Angle.cos azi = argA := by
    rw [hazidef]
    split_ifs
    · exact hcazip
    · rw [Angle.from_degrees_360_sub]
      unfold Angle.cos
      rw [Angle.cos_from_radians_tau_sub]
      exact hcazip
  have hsazi : Angle.sin azi = if Angle.sin ha < 0 then Angle.sin azip
      else -(Angle.sin azip) := by
    rw [hazidef]
    split_ifs
    · rfl
    · rw [Angle.from_degrees_360_sub]
      unfold Angle.sin
      rw [Angle.sin_from_radians_tau_sub]
  -- the reconstructed declination is exactly `de`
  have hde2arg : Angle.sin alt * Angle.sin lat +
      Angle.cos alt * Angle.cos lat * Angle.cos azi = Angle.sin de := by
    rw [hsalt, hcalt, hcazi, hargAdef]
    have hne := ne_of_gt hcaltpos
    have hcancel : Real.sqrt (1 - S ^ 2) * Angle.cos lat *
        (N / Real.sqrt (1 - S ^ 2)) = Angle.cos lat * N := by
      field_simp
      ring
    rw [hcancel]
    linarith only [hnum]
  rw [hde2arg,
    show Angle.asin (Angle.sin de) = de from
      Angle.asin_sin_wrapped hde.1 hde.2 hdeLat]
  -- the hour-angle acos argument collapses to `cos ha`
  have hhap_arg : (Angle.sin alt - Angle.sin lat * Angle.sin de) /
      (Angle.cos lat * Angle.cos de) = Angle.cos ha := by
    rw [hsalt, hSdef]
    field_simp
    ring
  rw [hhap_arg]
  -- the reconstructed hour angle is exactly `ha`
  have hha2eq : (if Angle.sin azi < 0 then Angle.acos (Angle.cos ha)
      else Angle.from_degrees (360 - Angle.degrees (Angle.acos (Angle.cos ha)))) =
      ha := by
    rcases lt_trichotomy (Angle.sin ha) 0 with hsh | hsh | hsh
    · -- `ha ∈ (π, 2π)`: the azimuth kept the plain acos, whose sine is ≥ 0
      have hgtpi : π < ha := gt_pi_of_sin_neg hha0 hsh
      have hbranch : ¬ Angle.sin azi < 0 := by
        rw [hsazi, if_pos hsh]
        exact not_lt.mpr hsazip0
      rw [if_neg hbranch]
      have hacos : Angle.acos (Angle.cos ha) = TAU - ha := by
        rw [Angle.acos_eq_arccos]
        unfold Angle.cos
        rw [show Real.cos ha = Real.cos (2 * π - ha) from
          (Real.cos_two_pi_sub ha).symm]
        rw [Real.arccos_cos (by linarith only [hhaT2])
          (by linarith only [hgtpi])]
        unfold TAU; ring
      rw [hacos, Angle.from_degrees_360_sub,
        show TAU - (TAU - ha) = ha by ring]
      exact Angle.from_radians_eq_self ⟨hha0, hhaT⟩
    · -- `sin ha = 0`: `ha` is 0 or π, both fixed points of either branch
      rcases sin_eq_zero_cases hha0 hhaT2 hsh with h0 | hpi'
      · rw [h0]
        unfold Angle.cos
        rw [Real.cos_zero,
          show Angle.acos 1 = 0 by rw [Angle.acos_eq_arccos, Real.arccos_one]]
        split_ifs
        · rfl
        · rw [show Angle.degrees 0 = 0 by unfold Angle.degrees; ring,
            show (360 : ℝ) - 0 = 360 by ring]
          unfold Angle.from_degrees
          rw [Angle.from_radians_congr
            (show ∃ k : ℤ, (360 : ℝ) * (π / 180) - 0 = TAU * k from
              ⟨1, by unfold TAU; push_cast; ring⟩)]
          exact Angle.from_radians_eq_self ⟨le_refl 0, TAU_pos⟩
      · rw [hpi']
        unfold Angle.cos
        rw [Real.cos_pi,
          show Angle.acos (-1) = π by
            rw [Angle.acos_eq_arccos, Real.arccos_neg_one]]
        split_ifs
        · rfl
        · rw [Angle.from_degrees_360_sub, show TAU - π = π by unfold TAU; ring]
          exact Angle.from_radians_eq_self ⟨hpi.le, by unfold TAU; linarith⟩
    · -- `ha ∈ (0, π)`: the azimuth took the `360 − acos` branch, sine < 0
      have hltpi : ha < π := lt_pi_of_sin_pos hha0 hhaT2 hsh
      have hargA2' : argA ^ 2 < 1 := by
        rw [hargAdef, div_pow, hsqrtsq, div_lt_one (by linarith only [hS2])]
        nlinarith only [hkey, mul_pos (mul_pos hcd hcd) (mul_pos hsh hsh)]
      have hbranch : Angle.sin azi < 0 := by
        rw [hsazi, if_neg (not_lt.mpr hsh.le), hsazip]
        have hsq : 0 < Real.sqrt (1 - argA ^ 2) :=
          Real.sqrt_pos.mpr (by linarith only [hargA2'])
        linarith only [hsq]
      rw [if_pos hbranch, Angle.acos_eq_arccos]
      unfold Angle.cos
      rw [Real.arccos_cos hha0 hltpi.le]
  rw [hha2eq, hhadef]
  rw [Angle.hourangle_involution ra dj time longi hra]

/-- Witness for the amended C5: RA 0, Dec 0, J2000, time 0, latitude 0,
longitude 0; all hypotheses hold (the hour angle at these inputs has a
nonzero sine because GST at J2000 midnight is strictly between 0h and 12h). -/
theorem c5_roundtrip_amended_witness :
    ((0 : ℝ) ∈ Set.Ico 0 TAU) ∧ ((0 : ℝ) ∈ Set.Ico 0 TAU) ∧
    ((0 : ℝ) < π / 2 ∨ 3 * π / 2 < (0 : ℝ)) ∧
    (Angle.cos 0 ≠ 0) ∧
    ((Angle.sin 0 * Angle.sin 0 + Angle.cos 0 * Angle.cos 0 *
      Angle.cos (Angle.hourangle_rightas 0 2451545 0 0)) ^ 2 ≠ 1) ∧
    Coord.from_horizon (Coord.horizon 0 0 2451545 0 0 0).1
      (Coord.horizon 0 0 2451545 0 0 0).2 2451545 0 0 0 = (0, 0) := by
  have hpi := pi_pos
  have h1 : (0 : ℝ) ∈ Set.Ico 0 TAU := ⟨le_refl 0, TAU_pos⟩
  have h3 : (0 : ℝ) < π / 2 ∨ 3 * π / 2 < (0 : ℝ) := Or.inl (by linarith)
  have h4 : Angle.cos 0 ≠ 0 := by unfold Angle.cos; rw [Real.cos_zero]; norm_num
  have hVmem : (6.697374558 : ℝ) * 15 * (π / 180) ∈ Set.Ico 0 TAU := by
    constructor
    · positivity
    · unfold TAU
      nlinarith only [hpi]
  have hgval : Angle.gst 0 2451545 =
      Angle.from_radians ((6.697374558 : ℝ) * 15 * (π / 180)) := by
    unfold Angle.gst Angle.from_decimal Angle.from_degrees Angle.decimal
      Angle.degrees Date.centuries
    congr 1
    norm_num
  have hhaval : Angle.hourangle_rightas 0 2451545 0 0 =
      (6.697374558 : ℝ) * 15 * (π / 180) := by
    unfold Angle.hourangle_rightas Angle.sub Angle.add Angle.radians
    rw [hgval, add_zero,
      Angle.from_radians_eq_self
        (Angle.from_radians_mem_Ico ((6.697374558 : ℝ) * 15 * (π / 180))),
      sub_zero, Angle.from_radians_eq_self hVmem]
    exact Angle.from_radians_eq_self hVmem
  have hsinpos : 0 < Angle.sin (Angle.hourangle_rightas 0 2451545 0 0) := by
    rw [hhaval]
    unfold Angle.sin
    apply Real.sin_pos_of_pos_of_lt_pi
    · positivity
    · nlinarith
  have h5 : (Angle.sin 0 * Angle.sin 0 + Angle.cos 0 * Angle.cos 0 *
      Angle.cos (Angle.hourangle_rightas 0 2451545 0 0)) ^ 2 ≠ 1 := by
    unfold Angle.sin Angle.cos
    rw [Real.sin_zero, Real.cos_zero]
    have hsq := Real.sin_sq_add_cos_sq (Angle.hourangle_rightas 0 2451545 0 0)
    unfold Angle.sin at hsinpos
    intro hcontra
    nlinarith
  refine ⟨h1, h1, h3, h4, h5, ?_⟩
  exact c5_roundtrip_amended 0 0 2451545 0 0 0 h1 h1 h3 h4 h5

/-- **C1** (confirmed).  `Angle::from_radians` lands in `[0, 2π)` and is the
least positive residue modulo `2π` (characterised by differing from the
input by an integer multiple of `2π`); every other constructor
(`from_degrees`, `from_turns`, `from_decimal`, `from_clock`,
`from_degminsec`, `asin`, `acos`, `atan2`) and the `+`, `-`, `*`, `/`
operators are built on `from_radians`, so all their results satisfy the
same `[0, 2π)` invariant. -/
theorem c1_from_radians_normalizes :
    (∀ x : ℝ, Angle.from_radians x ∈ Set.Ico 0 TAU ∧
      ∃ k : ℤ, x - Angle.from_radians x = TAU * k) ∧
    (∀ x : ℝ, Angle.from_degrees x ∈ Set.Ico 0 TAU) ∧
    (∀ x : ℝ, Angle.from_turns x ∈ Set.Ico 0 TAU) ∧
    (∀ x : ℝ, Angle.from_decimal x ∈ Set.Ico 0 TAU) ∧
    (∀ (h m : ℕ) (s : ℝ), Angle.from_clock h m s ∈ Set.Ico 0 TAU) ∧
    (∀ (d : ℤ) (m : ℕ) (s : ℝ), Angle.from_degminsec d m s ∈ Set.Ico 0 TAU) ∧
    (∀ x : ℝ, Angle.asin x ∈ Set.Ico 0 TAU) ∧
    (∀ x : ℝ, Angle.acos x ∈ Set.Ico 0 TAU) ∧
    (∀ x y : ℝ, Angle.atan2 x y ∈ Set.Ico 0 TAU) ∧
    (∀ a b : ℝ, Angle.add a b ∈ Set.Ico 0 TAU) ∧
    (∀ a b : ℝ, Angle.sub a b ∈ Set.Ico 0 TAU) ∧
    (∀ a k : ℝ, Angle.mul a k ∈ Set.Ico 0 TAU) ∧
    (∀ a k : ℝ, Angle.div a k ∈ Set.Ico 0 TAU) := by
  refine ⟨fun x => ⟨Angle.from_radians_mem_Ico x, Angle.from_radians_sub_int x⟩,
    ?_, ?_, ?_, ?_, ?_, ?_, ?_, ?_, ?_, ?_, ?_, ?_⟩ <;>
    intros <;> apply Angle.from_radians_mem_Ico

/-! ## C4: the sun model versus the negated Earth orbit

Certified numerical evaluation at J2000 (JD 2451545.0).  Real trigonometric
values are enclosed by degree-12 Taylor polynomials (`cosPoly`, `sinPoly`)
whose remainder is bounded through `Complex.exp_bound`, with arguments
reduced below 1 by the double-angle formulas and π enclosed by the 20-digit
Mathlib bounds.  The Newton iteration of `Planet::locationcart` is unfolded
step by step (`earthE0`, `earthDe1`, `earthE1`, `earthDe2`), each guard of
the `while` loop being settled by the certified enclosures. -/

/-- The initial guess `m + 57.29578 * e * sin(m re-expressed in radians)` of the
Newton iteration in `Planet::locationcart`, instantiated for `EARTH` at
JD 2451545.0 (where the mean anomaly evaluates to `-2.47311027` degrees). -/
noncomputable def earthE0 : ℝ :=
  -2.47311027 + 57.29578 * 0.01671123 * Real.sin (-2.47311027 * (π / 180))

/-- First Newton correction of the Kepler solve for Earth at J2000. -/
noncomputable def earthDe1 : ℝ := Planet.keplerStep (-2.47311027) 0.01671123 earthE0

/-- Eccentric-anomaly iterate after one Newton step. -/
noncomputable def earthE1 : ℝ := earthE0 + earthDe1

/-- Second Newton correction of the Kepler solve for Earth at J2000. -/
noncomputable def earthDe2 : ℝ := Planet.keplerStep (-2.47311027) 0.01671123 earthE1

/-- The eccentric anomaly `Planet::locationcart` computes for Earth at
JD 2451545.0: the fueled Newton loop started at `de = 1.0`, `ee = earthE0`. -/
noncomputable def earthEE : ℝ :=
  Planet.solveE (-2.47311027) 0.01671123 Planet.keplerFuel 1 earthE0

theorem earth_m_eval : Planet.keplerInputM EARTH 2451545 = -2.47311027 := by
  unfold Planet.keplerInputM Planet.meanAnomalyRaw Date.centuries EARTH normalizeM
  norm_num

theorem sun_x_eval : (sun.locationcart 2451545).1 =
    -((0.00561144206 + 0.00010466628 * Real.cos 1.66722645223
       + 0.00835257300 * Real.cos 1.71034539450
       + 0.99982928844 * Real.cos 1.75348568475)
     + (0.00010466965 * Real.cos 0.09641690558
       + 0.00835292314 * Real.cos 0.13952878991 - 0.02442699036
       + 0.99989211030 * Real.cos 0.18265890456) * 0.000000440360) := by
  unfold sun.locationcart Date.centuries
  norm_num

theorem earth_solve_eval :
    (Planet.locationcart EARTH 2451545).1 =
      Real.cos (102.93768193 * (π / 180)) *
          (1.00000261 * (Real.cos (earthEE * (π / 180)) - 0.01671123)) -
        Real.sin (102.93768193 * (π / 180)) *
          (1.00000261 * Real.sqrt (1 - 0.01671123 * 0.01671123) *
            Real.sin (earthEE * (π / 180))) := by
  unfold Planet.locationcart earthEE earthE0
  rw [earth_m_eval]
  unfold EARTH Date.centuries
  norm_num
  ring_nf



/-- Degree-10 cosine Taylor polynomial (the even part of the degree-12
exponential partial sum); for arguments of modulus at most 1 it encloses
`Real.cos` to within 2.3e-9 (`cos_taylor`). -/
noncomputable def cosPoly (x : ℝ) : ℝ :=
  1 - x ^ 2 / 2 + x ^ 4 / 24 - x ^ 6 / 720 + x ^ 8 / 40320 - x ^ 10 / 3628800

/-- Degree-11 sine Taylor polynomial (the odd part of the degree-12
exponential partial sum); for arguments of modulus at most 1 it encloses
`Real.sin` to within 2.3e-9 (`sin_taylor`). -/
noncomputable def sinPoly (x : ℝ) : ℝ :=
  x - x ^ 3 / 6 + x ^ 5 / 120 - x ^ 7 / 5040 + x ^ 9 / 362880 - x ^ 11 / 39916800

set_option maxHeartbeats 2000000 in
theorem exp_series_12 (x : ℝ) :
    (∑ m ∈ Finset.range 12, ((x : ℂ) * Complex.I) ^ m / m.factorial) =
      ⟨cosPoly x, sinPoly x⟩ := by
  simp only [Finset.sum_range_succ, Finset.range_zero, Finset.sum_empty, Nat.factorial]
  apply Complex.ext <;>
    simp [cosPoly, sinPoly, pow_succ, div_eq_mul_inv, Complex.normSq] <;> ring_nf

theorem cos_taylor {x : ℝ} (hx : |x| ≤ 1) : |Real.cos x - cosPoly x| ≤ 2.3e-9 := by
  have hax : Complex.abs ((x : ℂ) * Complex.I) ≤ 1 := by
    rw [map_mul, Complex.abs_I, mul_one, Complex.abs_ofReal]; exact hx
  have hb := Complex.exp_bound hax (by norm_num : 0 < 12)
  have hre : Real.cos x - cosPoly x =
      (Complex.exp ((x : ℂ) * Complex.I) -
        ∑ m ∈ Finset.range 12, ((x : ℂ) * Complex.I) ^ m / m.factorial).re := by
    rw [Complex.sub_re, Complex.exp_ofReal_mul_I_re, exp_series_12]
  have h1 : Complex.abs ((x : ℂ) * Complex.I) ^ 12 ≤ 1 :=
    pow_le_one₀ (AbsoluteValue.nonneg _ _) hax
  calc |Real.cos x - cosPoly x|
      ≤ Complex.abs (Complex.exp ((x : ℂ) * Complex.I) -
          ∑ m ∈ Finset.range 12, ((x : ℂ) * Complex.I) ^ m / m.factorial) := by
        rw [hre]; exact Complex.abs_re_le_abs _
    _ ≤ Complex.abs ((x : ℂ) * Complex.I) ^ 12 *
          ((Nat.succ 12 : ℝ) * ((Nat.factorial 12 : ℝ) * 12)⁻¹) := hb
    _ ≤ 2.3e-9 := by
        have h2 : ((Nat.succ 12 : ℝ) * ((Nat.factorial 12 : ℝ) * 12)⁻¹) = 13 / 5748019200 := by
          norm_num [Nat.factorial]
        rw [h2]
        nlinarith [h1, pow_nonneg (AbsoluteValue.nonneg Complex.abs ((x : ℂ) * Complex.I)) 12]

theorem sin_taylor {x : ℝ} (hx : |x| ≤ 1) : |Real.sin x - sinPoly x| ≤ 2.3e-9 := by
  have hax : Complex.abs ((x : ℂ) * Complex.I) ≤ 1 := by
    rw [map_mul, Complex.abs_I, mul_one, Complex.abs_ofReal]; exact hx
  have hb := Complex.exp_bound hax (by norm_num : 0 < 12)
  have hre : Real.sin x - sinPoly x =
      (Complex.exp ((x : ℂ) * Complex.I) -
        ∑ m ∈ Finset.range 12, ((x : ℂ) * Complex.I) ^ m / m.factorial).im := by
    rw [Complex.sub_im, Complex.exp_ofReal_mul_I_im, exp_series_12]
  have h1 : Complex.abs ((x : ℂ) * Complex.I) ^ 12 ≤ 1 :=
    pow_le_one₀ (AbsoluteValue.nonneg _ _) hax
  calc |Real.sin x - sinPoly x|
      ≤ Complex.abs (Complex.exp ((x : ℂ) * Complex.I) -
          ∑ m ∈ Finset.range 12, ((x : ℂ) * Complex.I) ^ m / m.factorial) := by
        rw [hre]; exact Complex.abs_im_le_abs _
    _ ≤ Complex.abs ((x : ℂ) * Complex.I) ^ 12 *
          ((Nat.succ 12 : ℝ) * ((Nat.factorial 12 : ℝ) * 12)⁻¹) := hb
    _ ≤ 2.3e-9 := by
        have h2 : ((Nat.succ 12 : ℝ) * ((Nat.factorial 12 : ℝ) * 12)⁻¹) = 13 / 5748019200 := by
          norm_num [Nat.factorial]
        rw [h2]
        nlinarith [h1, pow_nonneg (AbsoluteValue.nonneg Complex.abs ((x : ℂ) * Complex.I)) 12]

theorem sin_lipschitz (a b : ℝ) : |Real.sin a - Real.sin b| ≤ |a - b| := by
  rw [Real.sin_sub_sin, abs_mul, abs_mul, abs_two]
  have h1 : |Real.sin ((a - b) / 2)| ≤ |(a - b) / 2| := Real.abs_sin_le_abs
  have h2 : |Real.cos ((a + b) / 2)| ≤ 1 := Real.abs_cos_le_one _
  have h3 : |(a - b) / 2| = |a - b| / 2 := by rw [abs_div]; norm_num
  nlinarith [abs_nonneg (Real.sin ((a - b) / 2)), abs_nonneg ((a - b) / 2),
    abs_nonneg (Real.cos ((a + b) / 2))]

theorem cos_lipschitz (a b : ℝ) : |Real.cos a - Real.cos b| ≤ |a - b| := by
  rw [Real.cos_sub_cos, abs_mul, abs_mul, abs_neg, abs_two]
  have h1 : |Real.sin ((a - b) / 2)| ≤ |(a - b) / 2| := Real.abs_sin_le_abs
  have h2 : |Real.sin ((a + b) / 2)| ≤ 1 := Real.abs_sin_le_one _
  have h3 : |(a - b) / 2| = |a - b| / 2 := by rw [abs_div]; norm_num
  nlinarith [abs_nonneg (Real.sin ((a - b) / 2)), abs_nonneg ((a - b) / 2),
    abs_nonneg (Real.sin ((a + b) / 2))]



theorem approx_shift {x a b d e : ℝ} (hx : |x - a| ≤ d)
    (h1 : a - b + d ≤ e) (h2 : b - a + d ≤ e) : |x - b| ≤ e := by
  have h := abs_le.mp hx
  rw [abs_le]
  constructor <;> linarith [h.1, h.2]

theorem approx_sin {x a d : ℝ} (hx : |x - a| ≤ d) (ha1 : -1 ≤ a) (ha2 : a ≤ 1) :
    |Real.sin x - sinPoly a| ≤ d + 2.3e-9 := by
  have ha : |a| ≤ 1 := abs_le.mpr ⟨ha1, ha2⟩
  calc |Real.sin x - sinPoly a|
      ≤ |Real.sin x - Real.sin a| + |Real.sin a - sinPoly a| := abs_sub_le _ _ _
    _ ≤ d + 2.3e-9 := add_le_add (le_trans (sin_lipschitz x a) hx) (sin_taylor ha)

theorem approx_cos {x a d : ℝ} (hx : |x - a| ≤ d) (ha1 : -1 ≤ a) (ha2 : a ≤ 1) :
    |Real.cos x - cosPoly a| ≤ d + 2.3e-9 := by
  have ha : |a| ≤ 1 := abs_le.mpr ⟨ha1, ha2⟩
  calc |Real.cos x - cosPoly a|
      ≤ |Real.cos x - Real.cos a| + |Real.cos a - cosPoly a| := abs_sub_le _ _ _
    _ ≤ d + 2.3e-9 := add_le_add (le_trans (cos_lipschitz x a) hx) (cos_taylor ha)

theorem approx_cos_double {x a d : ℝ} (hx : |x - 2 * a| ≤ d) (ha1 : -1 ≤ a) (ha2 : a ≤ 1) :
    |Real.cos x - (2 * cosPoly a ^ 2 - 1)| ≤ d + 1.3e-8 := by
  have ha : |a| ≤ 1 := abs_le.mpr ⟨ha1, ha2⟩
  have ht := cos_taylor ha
  have hP : |cosPoly a| ≤ 1 + 2.3e-9 := by
    calc |cosPoly a| = |Real.cos a - (Real.cos a - cosPoly a)| := by ring_nf
      _ ≤ |Real.cos a| + |Real.cos a - cosPoly a| := abs_sub _ _
      _ ≤ 1 + 2.3e-9 := add_le_add (Real.abs_cos_le_one a) ht
  have hdd : |Real.cos (2 * a) - (2 * cosPoly a ^ 2 - 1)| ≤ 1.3e-8 := by
    rw [Real.cos_two_mul]
    have key : 2 * Real.cos a ^ 2 - 1 - (2 * cosPoly a ^ 2 - 1) =
        2 * (Real.cos a - cosPoly a) * (Real.cos a + cosPoly a) := by ring
    rw [key, abs_mul, abs_mul, abs_two]
    have h3 : |Real.cos a + cosPoly a| ≤ 2 + 2.3e-9 := by
      calc |Real.cos a + cosPoly a| ≤ |Real.cos a| + |cosPoly a| := abs_add _ _
        _ ≤ 1 + (1 + 2.3e-9) := add_le_add (Real.abs_cos_le_one a) hP
        _ = 2 + 2.3e-9 := by ring
    nlinarith [abs_nonneg (Real.cos a - cosPoly a), abs_nonneg (Real.cos a + cosPoly a)]
  calc |Real.cos x - (2 * cosPoly a ^ 2 - 1)|
      ≤ |Real.cos x - Real.cos (2 * a)| + |Real.cos (2 * a) - (2 * cosPoly a ^ 2 - 1)| :=
        abs_sub_le _ _ _
    _ ≤ d + 1.3e-8 := add_le_add (le_trans (cos_lipschitz x (2 * a)) hx) hdd

theorem approx_sin_double {x a d : ℝ} (hx : |x - 2 * a| ≤ d) (ha1 : -1 ≤ a) (ha2 : a ≤ 1) :
    |Real.sin x - 2 * sinPoly a * cosPoly a| ≤ d + 1.3e-8 := by
  have ha : |a| ≤ 1 := abs_le.mpr ⟨ha1, ha2⟩
  have hts := sin_taylor ha
  have htc := cos_taylor ha
  have hP : |sinPoly a| ≤ 1 + 2.3e-9 := by
    calc |sinPoly a| = |Real.sin a - (Real.sin a - sinPoly a)| := by ring_nf
      _ ≤ |Real.sin a| + |Real.sin a - sinPoly a| := abs_sub _ _
      _ ≤ 1 + 2.3e-9 := add_le_add (Real.abs_sin_le_one a) hts
  have hdd : |Real.sin (2 * a) - 2 * sinPoly a * cosPoly a| ≤ 1.3e-8 := by
    rw [Real.sin_two_mul]
    have key : 2 * Real.sin a * Real.cos a - 2 * sinPoly a * cosPoly a =
        2 * ((Real.sin a - sinPoly a) * Real.cos a + sinPoly a * (Real.cos a - cosPoly a)) := by
      ring
    rw [key, abs_mul, abs_two]
    have h3 : |(Real.sin a - sinPoly a) * Real.cos a + sinPoly a * (Real.cos a - cosPoly a)| ≤
        2.3e-9 * 1 + (1 + 2.3e-9) * 2.3e-9 := by
      calc |(Real.sin a - sinPoly a) * Real.cos a + sinPoly a * (Real.cos a - cosPoly a)|
          ≤ |(Real.sin a - sinPoly a) * Real.cos a| + |sinPoly a * (Real.cos a - cosPoly a)| :=
            abs_add _ _
        _ = |Real.sin a - sinPoly a| * |Real.cos a| + |sinPoly a| * |Real.cos a - cosPoly a| := by
            rw [abs_mul, abs_mul]
        _ ≤ 2.3e-9 * 1 + (1 + 2.3e-9) * 2.3e-9 := by
            have := Real.abs_cos_le_one a
            have h0 := abs_nonneg (Real.sin a - sinPoly a)
            have h5 := abs_nonneg (Real.cos a - cosPoly a)
            have h6 := abs_nonneg (sinPoly a)
            nlinarith
    nlinarith [abs_nonneg ((Real.sin a - sinPoly a) * Real.cos a +
      sinPoly a * (Real.cos a - cosPoly a))]
  calc |Real.sin x - 2 * sinPoly a * cosPoly a|
      ≤ |Real.sin x - Real.sin (2 * a)| + |Real.sin (2 * a) - 2 * sinPoly a * cosPoly a| :=
        abs_sub_le _ _ _
    _ ≤ d + 1.3e-8 := add_le_add (le_trans (sin_lipschitz x (2 * a)) hx) hdd

theorem approx_mul (A B : ℝ) {x y a b dx dy d : ℝ} (hx : |x - a| ≤ dx) (hy : |y - b| ≤ dy)
    (hA1 : -A ≤ a) (hA2 : a ≤ A) (hB1 : -B ≤ b) (hB2 : b ≤ B)
    (hd : A * dy + B * dx + dx * dy ≤ d) : |x * y - a * b| ≤ d := by
  have hdx0 : 0 ≤ dx := le_trans (abs_nonneg _) hx
  have hdy0 : 0 ≤ dy := le_trans (abs_nonneg _) hy
  have hA : |a| ≤ A := abs_le.mpr ⟨hA1, hA2⟩
  have hB : |b| ≤ B := abs_le.mpr ⟨hB1, hB2⟩
  have key : x * y - a * b = a * (y - b) + b * (x - a) + (x - a) * (y - b) := by ring
  rw [key]
  calc |a * (y - b) + b * (x - a) + (x - a) * (y - b)|
      ≤ |a * (y - b) + b * (x - a)| + |(x - a) * (y - b)| := abs_add _ _
    _ ≤ |a * (y - b)| + |b * (x - a)| + |(x - a) * (y - b)| :=
        add_le_add_right (abs_add _ _) _
    _ = |a| * |y - b| + |b| * |x - a| + |x - a| * |y - b| := by
        rw [abs_mul, abs_mul, abs_mul]
    _ ≤ A * dy + B * dx + dx * dy := by
        have h1 : |a| * |y - b| ≤ A * dy :=
          mul_le_mul hA hy (abs_nonneg _) (le_trans (abs_nonneg _) hA)
        have h2 : |b| * |x - a| ≤ B * dx :=
          mul_le_mul hB hx (abs_nonneg _) (le_trans (abs_nonneg _) hB)
        have h3 : |x - a| * |y - b| ≤ dx * dy :=
          mul_le_mul hx hy (abs_nonneg _) hdx0
        linarith
    _ ≤ d := hd

theorem approx_div (A : ℝ) {x y a b dx dy d : ℝ} (hx : |x - a| ≤ dx) (hy : |y - b| ≤ dy)
    (hA1 : -A ≤ a) (hA2 : a ≤ A) (hb : 0 < b - dy)
    (hd : (dx * b + A * dy) / ((b - dy) * b) ≤ d) : |x / y - a / b| ≤ d := by
  have hdx0 : 0 ≤ dx := le_trans (abs_nonneg _) hx
  have hdy0 : 0 ≤ dy := le_trans (abs_nonneg _) hy
  have hA : |a| ≤ A := abs_le.mpr ⟨hA1, hA2⟩
  have hb0 : 0 < b := by linarith
  have hy0 : 0 < y := by
    have h := abs_le.mp hy
    linarith [h.1]
  have hkey : x / y - a / b = (x * b - a * y) / (y * b) := by
    field_simp
    ring
  rw [hkey, abs_div]
  have hnum : |x * b - a * y| ≤ dx * b + A * dy := by
    have key2 : x * b - a * y = (x - a) * b + a * (b - y) := by ring
    rw [key2]
    calc |(x - a) * b + a * (b - y)| ≤ |(x - a) * b| + |a * (b - y)| := abs_add _ _
      _ = |x - a| * |b| + |a| * |b - y| := by rw [abs_mul, abs_mul]
      _ ≤ dx * b + A * dy := by
          rw [abs_of_pos hb0, abs_sub_comm b y]
          have h1 : |x - a| * b ≤ dx * b :=
            mul_le_mul_of_nonneg_right hx (le_of_lt hb0)
          have h2 : |a| * |y - b| ≤ A * dy :=
            mul_le_mul hA hy (abs_nonneg _) (le_trans (abs_nonneg _) hA)
          linarith
  have hden : (b - dy) * b ≤ |y * b| := by
    rw [abs_of_pos (mul_pos hy0 hb0)]
    have h3 : b - dy ≤ y := by linarith [(abs_le.mp hy).1]
    exact mul_le_mul_of_nonneg_right h3 (le_of_lt hb0)
  have hA0 : 0 ≤ A := le_trans (abs_nonneg _) hA
  calc |x * b - a * y| / |y * b| ≤ (dx * b + A * dy) / ((b - dy) * b) :=
      div_le_div₀ (add_nonneg (mul_nonneg hdx0 (le_of_lt hb0)) (mul_nonneg hA0 hdy0))
        hnum (mul_pos hb hb0) hden
    _ ≤ d := hd

theorem approx_sqrt {q r d : ℝ} (hr : 0 ≤ r) (hd : 0 ≤ d)
    (h1 : r ^ 2 ≤ q) (h2 : q ≤ (r + d) ^ 2) : |Real.sqrt q - r| ≤ d := by
  rw [abs_le]
  constructor
  · have h3 := Real.sqrt_le_sqrt h1
    rw [Real.sqrt_sq hr] at h3
    linarith
  · have h3 := Real.sqrt_le_sqrt h2
    rw [Real.sqrt_sq (by linarith)] at h3
    linarith



theorem sun_x_bounds :
    0.1772038 ≤ (sun.locationcart 2451545).1 ∧ (sun.locationcart 2451545).1 ≤ 0.1772048 := by
  have h1 : |Real.cos 1.66722645223 - (2 * cosPoly 0.833613226115 ^ 2 - 1)| ≤ 0 + 1.3e-8 :=
    approx_cos_double (by norm_num) (by norm_num) (by norm_num)
  have h2 : |Real.cos 1.71034539450 - (2 * cosPoly 0.85517269725 ^ 2 - 1)| ≤ 0 + 1.3e-8 :=
    approx_cos_double (by norm_num) (by norm_num) (by norm_num)
  have h3 : |Real.cos 1.75348568475 - (2 * cosPoly 0.876742842375 ^ 2 - 1)| ≤ 0 + 1.3e-8 :=
    approx_cos_double (by norm_num) (by norm_num) (by norm_num)
  have g1 : |Real.cos 1.66722645223 - -0.0962807486214| ≤ 1.4e-8 :=
    approx_shift h1 (by unfold cosPoly; norm_num) (by unfold cosPoly; norm_num)
  have g2 : |Real.cos 1.71034539450 - -0.1390965809352| ≤ 1.4e-8 :=
    approx_shift h2 (by unfold cosPoly; norm_num) (by unfold cosPoly; norm_num)
  have g3 : |Real.cos 1.75348568475 - -0.1816748317670| ≤ 1.4e-8 :=
    approx_shift h3 (by unfold cosPoly; norm_num) (by unfold cosPoly; norm_num)
  have e1 := abs_le.mp g1
  have e2 := abs_le.mp g2
  have e3 := abs_le.mp g3
  have hy1 := Real.cos_le_one 0.09641690558
  have hy1' := Real.neg_one_le_cos 0.09641690558
  have hy2 := Real.cos_le_one 0.13952878991
  have hy2' := Real.neg_one_le_cos 0.13952878991
  have hy3 := Real.cos_le_one 0.18265890456
  have hy3' := Real.neg_one_le_cos 0.18265890456
  rw [sun_x_eval]
  constructor <;>
    linarith [e1.1, e1.2, e2.1, e2.2, e3.1, e3.2, hy1, hy1', hy2, hy2', hy3, hy3']



theorem solveE_succ (m e : ℝ) (fuel : ℕ) (de ee : ℝ) (h : 1e-7 < |de|) :
    Planet.solveE m e (fuel + 1) de ee =
      Planet.solveE m e fuel (Planet.keplerStep m e ee) (ee + Planet.keplerStep m e ee) := by
  rw [Planet.solveE, if_pos h]

theorem solveE_halt (m e : ℝ) (fuel : ℕ) (de ee : ℝ) (h : ¬ 1e-7 < |de|) :
    Planet.solveE m e (fuel + 1) de ee = ee := by
  rw [Planet.solveE, if_neg h]

theorem earthEE_unfold (hg1 : 1e-7 < |earthDe1|) (hg2 : ¬ 1e-7 < |earthDe2|) :
    earthEE = earthE1 + earthDe2 := by
  unfold earthEE
  have h60 : Planet.keplerFuel = 58 + 1 + 1 := by norm_num [Planet.keplerFuel]
  rw [h60]
  rw [solveE_succ _ _ _ _ _ (by rw [abs_one]; norm_num)]
  have hd1 : Planet.keplerStep (-2.47311027) 0.01671123 earthE0 = earthDe1 := rfl
  have he1 : earthE0 + earthDe1 = earthE1 := rfl
  rw [hd1, he1, solveE_succ _ _ _ _ _ hg1]
  have hd2 : Planet.keplerStep (-2.47311027) 0.01671123 earthE1 = earthDe2 := rfl
  rw [hd2, solveE_halt _ _ _ _ _ hg2]



theorem pi180 : |π / 180 - 0.0174532925199433| ≤ 5e-15 := by
  rw [abs_le]
  constructor <;> linarith [Real.pi_gt_d20, Real.pi_lt_d20]

theorem rho_inv : |180 / π - 57.2957795130823| ≤ 1e-12 := by
  have h1 : 180 / π ≤ 57.2957795130823 + 1e-12 :=
    (div_le_iff₀ Real.pi_pos).mpr (by nlinarith [Real.pi_gt_d20])
  have h2 : 57.2957795130823 - 1e-12 ≤ 180 / π :=
    (le_div_iff₀ Real.pi_pos).mpr (by nlinarith [Real.pi_lt_d20])
  rw [abs_le]
  constructor <;> linarith

theorem k2v : |0.01671123 * (180 / π) - 0.9574829494724| ≤ 3e-14 := by
  have h := abs_le.mp rho_inv
  rw [abs_le]
  constructor <;> linarith [h.1, h.2]

theorem earth_arg0 : |(-2.47311027 : ℝ) * (π / 180) - -0.0431639169764| ≤ 1e-12 := by
  rw [abs_le]
  constructor <;> linarith [Real.pi_gt_d20, Real.pi_lt_d20]

theorem earth_s0v : |Real.sin (-2.47311027 * (π / 180)) - -0.0431505149386| ≤ 2.5e-9 := by
  have h : |Real.sin (-2.47311027 * (π / 180)) - sinPoly (-0.0431639169764)| ≤ 1e-12 + 2.3e-9 :=
    approx_sin earth_arg0 (by norm_num) (by norm_num)
  refine approx_shift h ?_ ?_ <;> (unfold sinPoly; norm_num)

theorem earth_e0v : |earthE0 - -2.5144261526658| ≤ 2.5e-9 := by
  unfold earthE0
  have h := abs_le.mp earth_s0v
  rw [abs_le]
  constructor <;> linarith [h.1, h.2]

theorem earth_arg1 : |earthE0 * (π / 180) - -0.0438850151623| ≤ 5e-11 := by
  have h : |earthE0 * (π / 180) - -2.5144261526658 * 0.0174532925199433| ≤ 4.4e-11 :=
    approx_mul 2.6 0.0175 earth_e0v pi180 (by norm_num) (by norm_num) (by norm_num)
      (by norm_num) (by norm_num)
  exact approx_shift h (by norm_num) (by norm_num)

theorem earth_s1v : |Real.sin (earthE0 * (π / 180)) - -0.0438709302000| ≤ 2.5e-9 := by
  have h : |Real.sin (earthE0 * (π / 180)) - sinPoly (-0.0438850151623)| ≤ 5e-11 + 2.3e-9 :=
    approx_sin earth_arg1 (by norm_num) (by norm_num)
  refine approx_shift h ?_ ?_ <;> (unfold sinPoly; norm_num)

theorem earth_c1v : |Real.cos (earthE0 * (π / 180)) - 0.9990372072568| ≤ 2.5e-9 := by
  have h : |Real.cos (earthE0 * (π / 180)) - cosPoly (-0.0438850151623)| ≤ 5e-11 + 2.3e-9 :=
    approx_cos earth_arg1 (by norm_num) (by norm_num)
  refine approx_shift h ?_ ?_ <;> (unfold cosPoly; norm_num)

theorem earth_num1 : |(-2.47311027 : ℝ) - (earthE0 - 0.01671123 * (180 / π) *
    Real.sin (earthE0 * (π / 180))) - -0.0006897849782| ≤ 5.1e-9 := by
  have hp : |0.01671123 * (180 / π) * Real.sin (earthE0 * (π / 180)) -
      0.9574829494724 * -0.0438709302000| ≤ 2.4e-9 :=
    approx_mul 0.958 0.0439 k2v earth_s1v (by norm_num) (by norm_num) (by norm_num)
      (by norm_num) (by norm_num)
  have h0 := abs_le.mp earth_e0v
  have h1 := abs_le.mp hp
  rw [abs_le]
  constructor <;> linarith [h0.1, h0.2, h1.1, h1.2]

theorem earth_den1 : |1 - 0.01671123 * Real.cos (earthE0 * (π / 180)) -
    0.9833048594510| ≤ 5e-11 := by
  have h := abs_le.mp earth_c1v
  rw [abs_le]
  constructor <;> linarith [h.1, h.2]

theorem earth_de1v : |earthDe1 - -0.0007014965619| ≤ 5.3e-9 := by
  have h : |(-2.47311027 - (earthE0 - 0.01671123 * (180 / π) *
      Real.sin (earthE0 * (π / 180)))) /
      (1 - 0.01671123 * Real.cos (earthE0 * (π / 180))) -
      -0.0006897849782 / 0.9833048594510| ≤ 5.2e-9 :=
    approx_div 0.0007 earth_num1 earth_den1 (by norm_num) (by norm_num) (by norm_num)
      (by norm_num)
  have h2 : earthDe1 = (-2.47311027 - (earthE0 - 0.01671123 * (180 / π) *
      Real.sin (earthE0 * (π / 180)))) /
      (1 - 0.01671123 * Real.cos (earthE0 * (π / 180))) := rfl
  rw [h2]
  exact approx_shift h (by norm_num) (by norm_num)

theorem earth_guard1 : 1e-7 < |earthDe1| := by
  have h := abs_le.mp earth_de1v
  have h2 : 1e-7 < -earthDe1 := by linarith [h.2]
  linarith [neg_le_abs earthDe1]

theorem earth_e1v : |earthE1 - -2.5151276492277| ≤ 8e-9 := by
  have h0 := abs_le.mp earth_e0v
  have h1 := abs_le.mp earth_de1v
  have h2 : earthE1 = earthE0 + earthDe1 := rfl
  rw [h2, abs_le]
  constructor <;> linarith [h0.1, h0.2, h1.1, h1.2]

theorem earth_arg2 : |earthE1 * (π / 180) - -0.0438972585870| ≤ 1.5e-10 := by
  have h : |earthE1 * (π / 180) - -2.5151276492277 * 0.0174532925199433| ≤ 1.45e-10 :=
    approx_mul 2.6 0.0175 earth_e1v pi180 (by norm_num) (by norm_num) (by norm_num)
      (by norm_num) (by norm_num)
  exact approx_shift h (by norm_num) (by norm_num)

theorem earth_s2v : |Real.sin (earthE1 * (π / 180)) - -0.0438831618336| ≤ 2.5e-9 := by
  have h : |Real.sin (earthE1 * (π / 180)) - sinPoly (-0.0438972585870)| ≤ 1.5e-10 + 2.3e-9 :=
    approx_sin earth_arg2 (by norm_num) (by norm_num)
  refine approx_shift h ?_ ?_ <;> (unfold sinPoly; norm_num)

theorem earth_c2v : |Real.cos (earthE1 * (π / 180)) - 0.9990366700514| ≤ 2.5e-9 := by
  have h : |Real.cos (earthE1 * (π / 180)) - cosPoly (-0.0438972585870)| ≤ 1.5e-10 + 2.3e-9 :=
    approx_cos earth_arg2 (by norm_num) (by norm_num)
  refine approx_shift h ?_ ?_ <;> (unfold cosPoly; norm_num)

theorem earth_num2 : |(-2.47311027 : ℝ) - (earthE1 - 0.01671123 * (180 / π) *
    Real.sin (earthE1 * (π / 180))) - 0| ≤ 1.1e-8 := by
  have hp : |0.01671123 * (180 / π) * Real.sin (earthE1 * (π / 180)) -
      0.9574829494724 * -0.0438831618336| ≤ 2.4e-9 :=
    approx_mul 0.958 0.0439 k2v earth_s2v (by norm_num) (by norm_num) (by norm_num)
      (by norm_num) (by norm_num)
  have h0 := abs_le.mp earth_e1v
  have h1 := abs_le.mp hp
  rw [abs_le]
  constructor <;> linarith [h0.1, h0.2, h1.1, h1.2]

theorem earth_den2 : |1 - 0.01671123 * Real.cos (earthE1 * (π / 180)) -
    0.9833048684283| ≤ 5e-11 := by
  have h := abs_le.mp earth_c2v
  rw [abs_le]
  constructor <;> linarith [h.1, h.2]

theorem earth_de2v : |earthDe2| ≤ 1.2e-8 := by
  have h : |(-2.47311027 - (earthE1 - 0.01671123 * (180 / π) *
      Real.sin (earthE1 * (π / 180)))) /
      (1 - 0.01671123 * Real.cos (earthE1 * (π / 180))) -
      0 / 0.9833048684283| ≤ 1.2e-8 :=
    approx_div 1 earth_num2 earth_den2 (by norm_num) (by norm_num) (by norm_num)
      (by norm_num)
  have h2 : earthDe2 = (-2.47311027 - (earthE1 - 0.01671123 * (180 / π) *
      Real.sin (earthE1 * (π / 180)))) /
      (1 - 0.01671123 * Real.cos (earthE1 * (π / 180))) := rfl
  rw [h2]
  simpa using h

theorem earth_guard2 : ¬ 1e-7 < |earthDe2| :=
  not_lt.mpr (le_trans earth_de2v (by norm_num))

theorem earth_eev : |earthEE - -2.5151276492277| ≤ 2.1e-8 := by
  rw [earthEE_unfold earth_guard1 earth_guard2]
  have h1 := abs_le.mp earth_e1v
  have h3 := abs_le.mp earth_de2v
  rw [abs_le]
  constructor <;> linarith [h1.1, h1.2, h3.1, h3.2]

theorem earth_arg3 : |earthEE * (π / 180) - -0.0438972585870| ≤ 4e-10 := by
  have h : |earthEE * (π / 180) - -2.5151276492277 * 0.0174532925199433| ≤ 3.8e-10 :=
    approx_mul 2.6 0.0175 earth_eev pi180 (by norm_num) (by norm_num) (by norm_num)
      (by norm_num) (by norm_num)
  exact approx_shift h (by norm_num) (by norm_num)

theorem earth_s3v : |Real.sin (earthEE * (π / 180)) - -0.0438831618336| ≤ 3e-9 := by
  have h : |Real.sin (earthEE * (π / 180)) - sinPoly (-0.0438972585870)| ≤ 4e-10 + 2.3e-9 :=
    approx_sin earth_arg3 (by norm_num) (by norm_num)
  refine approx_shift h ?_ ?_ <;> (unfold sinPoly; norm_num)

theorem earth_c3v : |Real.cos (earthEE * (π / 180)) - 0.9990366700514| ≤ 3e-9 := by
  have h : |Real.cos (earthEE * (π / 180)) - cosPoly (-0.0438972585870)| ≤ 4e-10 + 2.3e-9 :=
    approx_cos earth_arg3 (by norm_num) (by norm_num)
  refine approx_shift h ?_ ?_ <;> (unfold cosPoly; norm_num)

theorem earth_xpv : |1.00000261 * (Real.cos (earthEE * (π / 180)) - 0.01671123) -
    0.9823280039208| ≤ 3.5e-9 := by
  have h := abs_le.mp earth_c3v
  rw [abs_le]
  constructor <;> linarith [h.1, h.2]

theorem earth_sqrtv : |Real.sqrt (1 - 0.01671123 * 0.01671123) - 0.9998603576459| ≤ 1e-12 :=
  approx_sqrt (by norm_num) (by norm_num) (by norm_num) (by norm_num)

theorem earth_ypv : |1.00000261 * Real.sqrt (1 - 0.01671123 * 0.01671123) *
    Real.sin (earthEE * (π / 180)) - -0.0438771484046| ≤ 3.5e-9 := by
  have h0 : |(1.00000261 : ℝ) - 1.00000261| ≤ 0 := by norm_num
  have h1 : |(1.00000261 : ℝ) * Real.sqrt (1 - 0.01671123 * 0.01671123) -
      1.00000261 * 0.9998603576459| ≤ 1.1e-12 :=
    approx_mul 1.001 1 h0 earth_sqrtv (by norm_num) (by norm_num) (by norm_num)
      (by norm_num) (by norm_num)
  have h2 : |1.00000261 * Real.sqrt (1 - 0.01671123 * 0.01671123) *
      Real.sin (earthEE * (π / 180)) -
      1.00000261 * 0.9998603576459 * -0.0438831618336| ≤ 3.1e-9 :=
    approx_mul 1 0.044 h1 earth_s3v (by norm_num) (by norm_num) (by norm_num)
      (by norm_num) (by norm_num)
  exact approx_shift h2 (by norm_num) (by norm_num)

theorem earth_wwv : |(102.93768193 : ℝ) * (π / 180) - 2 * 0.8983007370246| ≤ 1e-11 := by
  rw [abs_le]
  constructor <;> linarith [Real.pi_gt_d20, Real.pi_lt_d20]

theorem earth_cwv : |Real.cos (102.93768193 * (π / 180)) - -0.2238911439600| ≤ 1.4e-8 := by
  have h : |Real.cos (102.93768193 * (π / 180)) -
      (2 * cosPoly 0.8983007370246 ^ 2 - 1)| ≤ 1e-11 + 1.3e-8 :=
    approx_cos_double earth_wwv (by norm_num) (by norm_num)
  refine approx_shift h ?_ ?_ <;> (unfold cosPoly; norm_num)

theorem earth_swv : |Real.sin (102.93768193 * (π / 180)) - 0.9746141567052| ≤ 1.4e-8 := by
  have h : |Real.sin (102.93768193 * (π / 180)) -
      2 * sinPoly 0.8983007370246 * cosPoly 0.8983007370246| ≤ 1e-11 + 1.3e-8 :=
    approx_sin_double earth_wwv (by norm_num) (by norm_num)
  refine approx_shift h ?_ ?_ <;> (unfold sinPoly cosPoly; norm_num)

theorem earth_x_bounds :
    -0.1771713 ≤ (Planet.locationcart EARTH 2451545).1 ∧
      (Planet.locationcart EARTH 2451545).1 ≤ -0.1771712 := by
  rw [earth_solve_eval]
  have h1 : |Real.cos (102.93768193 * (π / 180)) *
      (1.00000261 * (Real.cos (earthEE * (π / 180)) - 0.01671123)) -
      -0.2238911439600 * 0.9823280039208| ≤ 1.46e-8 :=
    approx_mul 0.224 0.983 earth_cwv earth_xpv (by norm_num) (by norm_num) (by norm_num)
      (by norm_num) (by norm_num)
  have h2 : |Real.sin (102.93768193 * (π / 180)) *
      (1.00000261 * Real.sqrt (1 - 0.01671123 * 0.01671123) *
        Real.sin (earthEE * (π / 180))) -
      0.9746141567052 * -0.0438771484046| ≤ 4.1e-9 :=
    approx_mul 0.975 0.044 earth_swv earth_ypv (by norm_num) (by norm_num) (by norm_num)
      (by norm_num) (by norm_num)
  have e1 := abs_le.mp h1
  have e2 := abs_le.mp h2
  constructor <;> linarith [e1.1, e1.2, e2.1, e2.2]



/-- **C4** (corrected): counterexample.  At J2000 (JD 2451545.0) the Sun
position of `sun::locationcart` (truncated VSOP87 series) is not the exact
component-wise negation of `EARTH.locationcart` (Keplerian propagation):
certified interval arithmetic places the Sun x component inside
`[0.1772038, 0.1772048]` and the negated Earth x component inside
`[0.1771712, 0.1771713]`, about 3.3e-5 AU apart, so the two pipelines are
distinct geometric models. -/
theorem c4_sun_neg_earth_counterexample :
    sun.locationcart 2451545 ≠
      (-(Planet.locationcart EARTH 2451545).1,
       -(Planet.locationcart EARTH 2451545).2.1,
       -(Planet.locationcart EARTH 2451545).2.2) := by
  intro h
  have h1 : (sun.locationcart 2451545).1 = -(Planet.locationcart EARTH 2451545).1 := by
    rw [h]
  have hs := sun_x_bounds
  have he := earth_x_bounds
  rw [h1] at hs
  linarith [hs.1, he.2]

/-- **C4** (corrected): amended claim.  The sun model agrees with the
negated Earth OrbitalBody vector only approximately, to the truncation
accuracy of its series: at JD 2451545.0 the x components of
`sun::locationcart` and `EARTH.locationcart` cancel to within 1e-4 AU
(the certified gap is about 3.3e-5 AU), yet they are provably not exact
negatives of each other. -/
theorem c4_sun_approx_neg_earth_amended :
    |(sun.locationcart 2451545).1 + (Planet.locationcart EARTH 2451545).1| < 1e-4 ∧
      (sun.locationcart 2451545).1 ≠ -(Planet.locationcart EARTH 2451545).1 := by
  have hs := sun_x_bounds
  have he := earth_x_bounds
  constructor
  · rw [abs_lt]
    constructor <;> linarith [hs.1, hs.2, he.1, he.2]
  · intro h
    rw [h] at hs
    linarith [hs.1, he.2]

end Pracstro
